import Mathlib

/-!
Shallow embedding of the monasca-agent Kubernetes collector plugin
(monasca_agent/collector/checks_d/kubernetes.py).

Modelling conventions:
* Python dictionaries are association lists over `String` keys; lookup takes
  the first matching entry, and an update replaces the entry in place (or
  appends a fresh entry at the end), matching insertion-ordered dicts.
* JSON numbers and metric values are rationals (`ℚ`).
* HTTP fetches are inputs of type `Except`, the error case standing for any
  exception raised by the request.
* Emission through `self.gauge` / `self.rate` is modelled by returning the
  list of emitted `Sample` values; in-place mutation of a dictionary that the
  source passes by reference is modelled by threading the updated list back
  to the caller, and a `.copy()` in the source corresponds to *not* threading
  the update back.
-/

/-- A Python dict with string keys, as an insertion-ordered association list. -/
abbrev Dims := List (String × String)

/-- A raw cAdvisor section: field name to numeric value. -/
abbrev QMap := List (String × ℚ)

/-- Scalar pod accumulator: pod_key → metric name → running sum. -/
abbrev PodMetrics := List (String × QMap)

/-- Network pod accumulator: pod_key → interface → metric name → running sum. -/
abbrev PodNetMetrics := List (String × List (String × QMap))

/-- The kubernetes_connector secondary lookup, as a function from
(replica-set name, namespace) to the annotation map of the fetched object;
`.error` stands for a connection failure or a missing-field KeyError. -/
abbrev ConnFn := String → String → Except Unit Dims

/-- Dict lookup: `d[k]` / `d.get(k)`. First matching entry wins. -/
def aGet {α : Type} (m : List (String × α)) (k : String) : Option α :=
  (m.find? (fun p => p.1 == k)).map Prod.snd

/-- Update the entry at key `k` by `f` (receiving the current value if any),
replacing in place or appending a new entry: the effect of a Python dict
item assignment on an insertion-ordered dict. -/
def aUpd {α : Type} : List (String × α) → String → (Option α → α) → List (String × α)
  | [], k, f => [(k, f none)]
  | p :: rest, k, f =>
    if p.1 == k then (p.1, f (some p.2)) :: rest else p :: aUpd rest k f

/-- Dict item assignment `d[k] = v`. -/
def aSet {α : Type} (m : List (String × α)) (k : String) (v : α) : List (String × α) :=
  aUpd m k (fun _ => v)

/-- Python `k in d`. -/
def dContains {α : Type} (m : List (String × α)) (k : String) : Bool :=
  (aGet m k).isSome

/-- Python `del d[k]`. -/
def dDel {α : Type} (m : List (String × α)) (k : String) : List (String × α) :=
  m.filter (fun p => !(p.1 == k))

/-- Python `a.update(b)` for dicts: set every entry of `b` into `a`, in order. -/
def dUpdate (a b : Dims) : Dims :=
  b.foldl (fun acc p => aSet acc p.1 p.2) a

/-- `d[k] += v`, initializing at `v` when the key is absent
(the `if metric_name not in ...` pattern of `_add_pod_metric`). -/
def qAdd (m : QMap) (k : String) (v : ℚ) : QMap :=
  aUpd m k (fun o => match o with | none => v | some w => w + v)

/-- Truthiness of a `pod_key` value (`if pod_key:`): `None` and `""` are falsy. -/
def truthyKey : Option String → Bool
  | none => false
  | some s => !s.isEmpty

/-- The string carried by a truthy pod_key. -/
def keyOf (k : Option String) : String :=
  k.getD ""

/-- Truthiness of an optional JSON list (`if not pod_containers`). -/
def truthyList {α : Type} : Option (List α) → Bool
  | none => false
  | some l => !l.isEmpty

/-- Whether `small` is a leading block of `large` (helper for substring tests). -/
def leadsList : List Char → List Char → Bool
  | [], _ => true
  | _ :: _, [] => false
  | a :: as, b :: bs => a == b && leadsList as bs

/-- Python `needle in haystack` on strings: substring containment. -/
def strIn (needle haystack : String) : Bool :=
  (List.range (haystack.data.length + 1)).any
    (fun i => leadsList needle.data (haystack.data.drop i))

/-- Characters strictly before the first occurrence of `c`:
`s.split(c)[0]` when `c` is a single character. -/
def beforeChar (c : Char) : List Char → List Char
  | [] => []
  | a :: t => if a == c then [] else a :: beforeChar c t

/-- Split a character list on a separator character, Python `s.split(c)`. -/
def splitOnChar (c : Char) : List Char → List (List Char)
  | [] => [[]]
  | a :: t =>
    match splitOnChar c t with
    | [] => [[]]
    | h :: r => if a == c then [] :: h :: r else (a :: h) :: r

/-- Rejoin pieces with a separator character, Python `c.join(pieces)`. -/
def joinChar (c : Char) : List (List Char) → List Char
  | [] => []
  | [x] => x
  | x :: y :: r => x ++ c :: joinChar c (y :: r)

/-- The characters after the last occurrence of `sep` (the whole list when
`sep` does not occur): Python `s.split(sep)[-1]` for the non-overlapping
separators that occur in container IDs such as `docker://hash`. -/
def lastSplitTail (sep l : List Char) : List Char :=
  match ((List.range (l.length + 1)).filter (fun i => leadsList sep (l.drop i))).getLast? with
  | none => l
  | some i => l.drop (i + sep.length)

/-- Whether every character is a decimal digit. -/
def allDigits (l : List Char) : Bool :=
  l.all (fun c => c.isDigit)

/-- Value of a decimal digit string, as a natural number. -/
def digitsNat (l : List Char) : ℕ :=
  l.foldl (fun a c => a * 10 + (c.toNat - 48)) 0

/-- Value of a decimal digit string. -/
def digitsVal (l : List Char) : ℚ :=
  (digitsNat l : ℚ)

/-- Python `float()` restricted to the nonnegative decimal literals that occur
as CPU quantities (digits with an optional fractional part); `none` models a
ValueError on anything else. -/
def pyFloat (s : String) : Option ℚ :=
  match splitOnChar '.' s.data with
  | [w] => if !w.isEmpty && allDigits w then some (digitsVal w) else none
  | [w, fr] =>
    if (!w.isEmpty || !fr.isEmpty) && allDigits w && allDigits fr then
      some (digitsVal w + digitsVal fr / (10 : ℚ) ^ fr.length)
    else none
  | _ => none

/-- `CADVISOR_METRICS["cpu_metrics"]`: raw cpu usage field → canonical name. -/
def cpu_metrics : List (String × String) :=
  [("system", "cpu.system_time"),
   ("total", "cpu.total_time"),
   ("user", "cpu.user_time")]

/-- `CADVISOR_METRICS["memory_metrics"]`: raw memory field → canonical name. -/
def memory_metrics : List (String × String) :=
  [("rss", "mem.rss_bytes"),
   ("swap", "mem.swap_bytes"),
   ("cache", "mem.cache_bytes"),
   ("usage", "mem.used_bytes"),
   ("failcnt", "mem.fail_count")]

/-- `CADVISOR_METRICS["filesystem_metrics"]`: raw filesystem field → canonical
name, exactly as in the source (including the `reads_completes` key). -/
def filesystem_metrics : List (String × String) :=
  [("capacity", "fs.total_bytes"),
   ("usage", "fs.usage_bytes"),
   ("writes_completed", "fs.writes"),
   ("reads_completes", "fs.reads"),
   ("io_in_progress", "fs.io_current")]

/-- `CADVISOR_METRICS["network_metrics"]`: raw network field → canonical name. -/
def network_metrics : List (String × String) :=
  [("rx_bytes", "net.in_bytes"),
   ("tx_bytes", "net.out_bytes"),
   ("rx_packets", "net.in_packets"),
   ("tx_packets", "net.out_packets"),
   ("rx_dropped", "net.in_dropped_packets"),
   ("tx_dropped", "net.out_dropped_packets"),
   ("rx_errors", "net.in_errors"),
   ("tx_errors", "net.out_errors")]

/-- `METRIC_TYPES_UNITS`: canonical name → (metric types, metric units). -/
def METRIC_TYPES_UNITS : List (String × (List String × List String)) :=
  [("cpu.system_time", (["gauge", "rate"], ["core_seconds", "cores_seconds_per_second"])),
   ("cpu.total_time", (["gauge", "rate"], ["core_seconds", "cores_seconds_per_second"])),
   ("cpu.user_time", (["gauge", "rate"], ["core_seconds", "cores_seconds_per_second"])),
   ("mem.rss_bytes", (["gauge"], ["bytes"])),
   ("mem.swap_bytes", (["gauge"], ["bytes"])),
   ("mem.cache_bytes", (["gauge"], ["bytes"])),
   ("mem.used_bytes", (["gauge"], ["bytes"])),
   ("mem.fail_count", (["gauge"], ["count"])),
   ("fs.total_bytes", (["gauge"], ["bytes"])),
   ("fs.usage_bytes", (["gauge"], ["bytes"])),
   ("fs.writes", (["gauge", "rate"], ["bytes", "bytes_per_second"])),
   ("fs.reads", (["gauge", "rate"], ["bytes", "bytes_per_second"])),
   ("fs.io_current", (["gauge"], ["bytes"])),
   ("net.in_bytes", (["gauge", "rate"], ["bytes", "bytes_per_second"])),
   ("net.out_bytes", (["gauge", "rate"], ["bytes", "bytes_per_second"])),
   ("net.in_packets", (["gauge", "rate"], ["packets", "packets_per_second"])),
   ("net.out_packets", (["gauge", "rate"], ["packets", "packets_per_second"])),
   ("net.in_dropped_packets", (["gauge", "rate"], ["packets", "packets_per_second"])),
   ("net.out_dropped_packets", (["gauge", "rate"], ["packets", "packets_per_second"])),
   ("net.in_errors", (["gauge", "rate"], ["errors", "errors_per_second"])),
   ("net.out_errors", (["gauge", "rate"], ["errors", "errors_per_second"]))]

/-- `METRIC_TYPES_UNITS[metric_name]`; the default is unreachable because every
canonical name produced by the tables above has a catalog entry. -/
def catalogGet (metric_name : String) : List String × List String :=
  (aGet METRIC_TYPES_UNITS metric_name).getD ([], [])

/-- `POD_PHASE` lookup via `.get`, `none` for an unknown phase string. -/
def POD_PHASE : List (String × ℚ) :=
  [("Succeeded", 0), ("Running", 1), ("Pending", 2), ("Failed", 3), ("Unknown", 4)]

/-- One emitted measurement: a call to `self.gauge` or `self.rate`.
`value` is optional because `POD_PHASE.get` can pass `None` through to
`self.gauge`; `suppressHost` records `hostname="SUPPRESS"`. -/
structure Sample where
  name : String
  value : Option ℚ
  dims : Dims
  kind : String
  suppressHost : Bool
  deriving Repr, DecidableEq

/-- One entry of `status.containerStatuses` of a pod. -/
structure ContainerStatus where
  name : String
  image : String
  containerID : Option String
  restartCount : ℚ
  ready : Bool
  deriving Repr, DecidableEq

/-- `resources.limits` or `resources.requests` of a spec container. -/
structure ResourceReqs where
  cpu : Option String
  memory : Option String
  deriving Repr, DecidableEq

/-- One entry of `spec.containers` of a pod. `limits`/`requests` being `none`
models the KeyError path of `_report_container_limits` (no `resources.limits`
resp. `resources.requests` on the container). -/
structure PodContainer where
  name : String
  limits : Option ResourceReqs
  requests : Option ResourceReqs
  deriving Repr, DecidableEq

/-- An owner reference `(kind, name)`; the fields the source reads from
`ownerReferences[0]` or from the parsed created-by annotation. -/
structure OwnerReference where
  kind : String
  name : String
  deriving Repr, DecidableEq

/-- `pod['metadata']`. `createdBy` is the owner reference parsed out of the
legacy created-by JSON annotation, `none` when that parse or any of its key
lookups fails (the except-branch of `_get_pod_dimensions`). -/
structure PodMetadata where
  name : String
  nspace : String
  labels : Option Dims
  ownerReferences : Option (List OwnerReference)
  createdBy : Option OwnerReference
  deriving Repr, DecidableEq

/-- One entry of the kubelet `/pods` item list. -/
structure Pod where
  metadata : PodMetadata
  phase : String
  containers : Option (List PodContainer)
  containerStatuses : Option (List ContainerStatus)
  deriving Repr, DecidableEq

/-- One entry of the cAdvisor spec document. `labels = none` models a spec
without a `labels` key. -/
structure ContainerSpec where
  aliases : List String
  image : String
  labels : Option Dims
  deriving Repr, DecidableEq

/-- A network interface of a cAdvisor snapshot: its name plus the raw
counter fields present on it. -/
structure NetInterface where
  name : String
  counters : QMap
  deriving Repr, DecidableEq

/-- One filesystem entry of a cAdvisor snapshot. -/
structure FsEntry where
  device : String
  fields : QMap
  deriving Repr, DecidableEq

/-- One cAdvisor stats snapshot. `cpu = some usage` stands for a truthy `cpu`
dict with its `usage` sub-dict; `filesystem`/`network` are `none` when the key
is absent or its value falsy. -/
structure CadvisorSnapshot where
  has_cpu : Bool
  cpu : Option QMap
  has_memory : Bool
  memory : QMap
  has_filesystem : Bool
  filesystem : Option (List FsEntry)
  has_network : Bool
  network : Option (List NetInterface)
  deriving Repr, DecidableEq

instance : Inhabited CadvisorSnapshot :=
  ⟨⟨false, none, false, [], false, none, false, none⟩⟩

/-- `Kubernetes._convert_cpu_to_cores`: millicore strings (containing `m`)
are the prefix before the first `m` divided by 1000, anything else is parsed
directly; `none` models the ValueError of `float()`. -/
def convert_cpu_to_cores (cpu_string : String) : Option ℚ :=
  if strIn "m" cpu_string then
    (pyFloat (String.mk (beforeChar 'm' cpu_string.data))).map (fun cpu => cpu / 1000)
  else
    pyFloat cpu_string

/-- Modelled from the spec: `utils.convert_memory_string_to_bytes` lives in
`monasca_agent/collector/checks/utils.py`, which is not part of this
repository snapshot. Per the spec it parses a magnitude plus a standard
binary/decimal suffix (Ki, Mi, Gi, K, M, G) into a byte count. -/
def convert_memory_string_to_bytes (s : String) : Option ℚ :=
  let l := s.data
  let suffix2 := l.drop (l.length - 2)
  let suffix1 := l.drop (l.length - 1)
  if suffix2 = ['K', 'i'] then (pyFloat (String.mk (l.take (l.length - 2)))).map (· * 1024)
  else if suffix2 = ['M', 'i'] then (pyFloat (String.mk (l.take (l.length - 2)))).map (· * (1024 * 1024))
  else if suffix2 = ['G', 'i'] then (pyFloat (String.mk (l.take (l.length - 2)))).map (· * (1024 * 1024 * 1024))
  else if suffix1 = ['K'] then (pyFloat (String.mk (l.take (l.length - 1)))).map (· * 1000)
  else if suffix1 = ['M'] then (pyFloat (String.mk (l.take (l.length - 1)))).map (· * 1000000)
  else if suffix1 = ['G'] then (pyFloat (String.mk (l.take (l.length - 1)))).map (· * 1000000000)
  else pyFloat s

/-- `Kubernetes._get_api_health`: a fetch failure is caught and yields
`False`; otherwise scan the body lines for one equal to `"ok"`. -/
def get_api_health (result : Except String (List String)) : Bool :=
  match result with
  | .error _ => false
  | .ok lines => lines.any (fun line => line == "ok")

/-- `Kubernetes._get_deployment_name`: secondary replica-set lookup. A
connection failure or missing-field KeyError is caught (`none`); on success
the deployment name is the owner name minus its last hyphen-separated
segment when the revision-marker key is present, otherwise `none`. -/
def get_deployment_name (f : ConnFn) (pod_owner_name pod_namespace : String) : Option String :=
  match f pod_owner_name pod_namespace with
  | .error _ => none
  | .ok anns =>
    if (aGet anns "deployment.kubernetes.io/revision").isSome then
      some (String.mk (joinChar '-' ((splitOnChar '-' pod_owner_name.data).dropLast)))
    else
      none

/-- `Kubernetes._set_pod_owner_dimension`: classify the owner kind into one
dimension. For `ReplicaSet`, `if not deployment_name` treats both `None` and
the empty string as falsy and falls back to the `replica_set` dimension. -/
def set_pod_owner_dimension (conn : Option ConnFn) (pod_dimensions : Dims)
    (pod_owner_type pod_owner_name : String) : Dims :=
  if pod_owner_type == "ReplicationController" then
    aSet pod_dimensions "replication_controller" pod_owner_name
  else if pod_owner_type == "ReplicaSet" then
    let deployment_name : Option String :=
      match conn with
      | none => none
      | some f => get_deployment_name f pod_owner_name ((aGet pod_dimensions "namespace").getD "")
    match deployment_name with
    | none => aSet pod_dimensions "replica_set" pod_owner_name
    | some dn =>
      if dn.isEmpty then aSet pod_dimensions "replica_set" pod_owner_name
      else aSet pod_dimensions "deployment" dn
  else if pod_owner_type == "DaemonSet" then
    aSet pod_dimensions "daemon_set" pod_owner_name
  else
    pod_dimensions

/-- `Kubernetes._get_pod_dimensions`: pod name/namespace, the configured
labels present on the pod, then the owner dimension from `ownerReferences`
(first entry of a truthy list) or else from the created-by annotation. -/
def get_pod_dimensions (conn : Option ConnFn) (pod_metadata : PodMetadata)
    (kubernetes_labels : List String) : Dims :=
  let pod_dimensions : Dims :=
    [("pod_name", pod_metadata.name), ("namespace", pod_metadata.nspace)]
  let pod_dimensions :=
    match pod_metadata.labels with
    | none => pod_dimensions
    | some pod_labels =>
      kubernetes_labels.foldl
        (fun acc label =>
          match aGet pod_labels label with
          | some v => aSet acc label v
          | none => acc)
        pod_dimensions
  match pod_metadata.ownerReferences with
  | some (r :: _) => set_pod_owner_dimension conn pod_dimensions r.kind r.name
  | some [] | none =>
    match pod_metadata.createdBy with
    | some r => set_pod_owner_dimension conn pod_dimensions r.kind r.name
    | none => pod_dimensions

/-- `metric_types.index(t)`. -/
def pyIndex (l : List String) (x : String) : ℕ :=
  l.findIdx (fun y => y == x)

/-- Loop body of `Kubernetes._send_metrics`: walk the remaining metric
types, setting `dimensions["unit"]` in place before each emission; the rate
emission appends `_sec` to the metric name. Returns the emitted samples and
the mutated dimension dict. -/
def send_metrics_go (metric_name : String) (value : ℚ)
    (metric_types metric_units : List String) :
    List String → Dims → List Sample × Dims
  | [], dims => ([], dims)
  | t :: rest, dims =>
    if t == "rate" then
      let dims1 := aSet dims "unit" (metric_units.getD (pyIndex metric_types "rate") "")
      let s : Sample :=
        ⟨metric_name ++ "_sec", some value, dims1, "rate", dContains dims1 "pod_name"⟩
      let r := send_metrics_go metric_name value metric_types metric_units rest dims1
      (s :: r.1, r.2)
    else if t == "gauge" then
      let dims1 := aSet dims "unit" (metric_units.getD (pyIndex metric_types "gauge") "")
      let s : Sample :=
        ⟨metric_name, some value, dims1, "gauge", dContains dims1 "pod_name"⟩
      let r := send_metrics_go metric_name value metric_types metric_units rest dims1
      (s :: r.1, r.2)
    else
      send_metrics_go metric_name value metric_types metric_units rest dims

/-- `Kubernetes._send_metrics`. -/
def send_metrics (metric_name : String) (value : ℚ) (dimensions : Dims)
    (metric_types metric_units : List String) : List Sample × Dims :=
  send_metrics_go metric_name value metric_types metric_units metric_types dimensions

/-- `Kubernetes._add_pod_metric`: accumulate into the scalar pod map only
for a truthy pod key, initializing on first write. -/
def add_pod_metric (metric_name : String) (metric_value : ℚ) (pod_key : Option String)
    (pod_metrics : PodMetrics) : PodMetrics :=
  if truthyKey pod_key then
    aUpd pod_metrics (keyOf pod_key) (fun o => qAdd (o.getD []) metric_name metric_value)
  else
    pod_metrics

/-- `acc[pod_key][interface][metric] += value` with initialization at every
level, the nested-if block of `_parse_network`. -/
def netAdd (acc : PodNetMetrics) (k iface m : String) (v : ℚ) : PodNetMetrics :=
  aUpd acc k (fun o1 => aUpd (o1.getD []) iface (fun o2 => qAdd (o2.getD []) m v))

/-- Loop body of `Kubernetes._parse_memory` over the memory table: emit
container samples when reporting is on, and accumulate into the scalar pod
map unconditionally. -/
def parse_memory_go (report : Bool) (memory_data : QMap) (pod_key : Option String) :
    List (String × String) → Dims → PodMetrics → List Sample × Dims × PodMetrics
  | [], cd, pm => ([], cd, pm)
  | (cadvisor_key, metric_name) :: rest, cd, pm =>
    match aGet memory_data cadvisor_key with
    | none => parse_memory_go report memory_data pod_key rest cd pm
    | some metric_value =>
      let e :=
        if report then
          send_metrics ("container." ++ metric_name) metric_value cd
            (catalogGet metric_name).1 (catalogGet metric_name).2
        else ([], cd)
      let pm1 := add_pod_metric metric_name metric_value pod_key pm
      let r := parse_memory_go report memory_data pod_key rest e.2 pm1
      (e.1 ++ r.1, r.2.1, r.2.2)

/-- `Kubernetes._parse_memory`. -/
def parse_memory (report : Bool) (memory_data : QMap) (container_dimensions : Dims)
    (pod_key : Option String) (pod_map : PodMetrics) : List Sample × Dims × PodMetrics :=
  parse_memory_go report memory_data pod_key memory_metrics container_dimensions pod_map

/-- Loop body of `Kubernetes._parse_cpu` over the cpu table: nanoseconds are
divided by 1000000000 before emission and accumulation. -/
def parse_cpu_go (report : Bool) (cpu_usage : QMap) (pod_key : Option String) :
    List (String × String) → Dims → PodMetrics → List Sample × Dims × PodMetrics
  | [], cd, pm => ([], cd, pm)
  | (cadvisor_key, metric_name) :: rest, cd, pm =>
    match aGet cpu_usage cadvisor_key with
    | none => parse_cpu_go report cpu_usage pod_key rest cd pm
    | some raw =>
      let cpu_usage_sec := raw / 1000000000
      let e :=
        if report then
          send_metrics ("container." ++ metric_name) cpu_usage_sec cd
            (catalogGet metric_name).1 (catalogGet metric_name).2
        else ([], cd)
      let pm1 := add_pod_metric metric_name cpu_usage_sec pod_key pm
      let r := parse_cpu_go report cpu_usage pod_key rest e.2 pm1
      (e.1 ++ r.1, r.2.1, r.2.2)

/-- `Kubernetes._parse_cpu` (its argument is the `usage` sub-dict). -/
def parse_cpu (report : Bool) (cpu_usage : QMap) (container_dimensions : Dims)
    (pod_key : Option String) (pod_metrics : PodMetrics) : List Sample × Dims × PodMetrics :=
  parse_cpu_go report cpu_usage pod_key cpu_metrics container_dimensions pod_metrics

/-- Inner loop of `Kubernetes._parse_filesystem` over the filesystem table
for one filesystem entry, threading the per-entry `file_dimensions` copy. -/
def parse_filesystem_table_go (fields : QMap) :
    List (String × String) → Dims → List Sample × Dims
  | [], fd => ([], fd)
  | (cadvisor_key, metric_name) :: rest, fd =>
    match aGet fields cadvisor_key with
    | none => parse_filesystem_table_go fields rest fd
    | some v =>
      let e :=
        send_metrics ("container." ++ metric_name) v fd
          (catalogGet metric_name).1 (catalogGet metric_name).2
      let r := parse_filesystem_table_go fields rest e.2
      (e.1 ++ r.1, r.2)

/-- Outer loop of `_parse_filesystem`: each entry works on a fresh copy of
the container dimensions extended with its `device`. -/
def parse_filesystem_go : List FsEntry → Dims → List Sample
  | [], _ => []
  | e :: rest, cd =>
    let file_dimensions := aSet cd "device" e.device
    (parse_filesystem_table_go e.fields filesystem_metrics file_dimensions).1 ++
      parse_filesystem_go rest cd

/-- `Kubernetes._parse_filesystem`: emits nothing at all unless container
metric reporting is enabled. -/
def parse_filesystem (report : Bool) (filesystem_data : List FsEntry)
    (container_dimensions : Dims) : List Sample :=
  if report then parse_filesystem_go filesystem_data container_dimensions else []

/-- Inner loop of `Kubernetes._parse_network` over the network table for one
interface: container emission is gated by the report flag, accumulation into
the network pod map happens for every truthy pod key. -/
def parse_network_metric_go (report : Bool) (counters : QMap)
    (network_interface : String) (pod_key : Option String) :
    List (String × String) → Dims → PodNetMetrics → List Sample × Dims × PodNetMetrics
  | [], nd, acc => ([], nd, acc)
  | (cadvisor_key, metric_name) :: rest, nd, acc =>
    match aGet counters cadvisor_key with
    | none => parse_network_metric_go report counters network_interface pod_key rest nd acc
    | some metric_value =>
      let e :=
        if report then
          send_metrics ("container." ++ metric_name) metric_value nd
            (catalogGet metric_name).1 (catalogGet metric_name).2
        else ([], nd)
      let acc1 :=
        if truthyKey pod_key then
          netAdd acc (keyOf pod_key) network_interface metric_name metric_value
        else acc
      let r :=
        parse_network_metric_go report counters network_interface pod_key rest e.2 acc1
      (e.1 ++ r.1, r.2.1, r.2.2)

/-- Outer loop of `_parse_network`: each interface works on a fresh copy of
the container dimensions extended with its `interface` name. -/
def parse_network_go (report : Bool) (container_dimensions : Dims) (pod_key : Option String) :
    List NetInterface → PodNetMetrics → List Sample × PodNetMetrics
  | [], acc => ([], acc)
  | iface :: rest, acc =>
    let network_dimensions := aSet container_dimensions "interface" iface.name
    let e :=
      parse_network_metric_go report iface.counters iface.name pod_key
        network_metrics network_dimensions acc
    let r := parse_network_go report container_dimensions pod_key rest e.2.2
    (e.1 ++ r.1, r.2)

/-- `Kubernetes._parse_network` (its argument is the `interfaces` list). -/
def parse_network (report : Bool) (interfaces : List NetInterface)
    (container_dimensions : Dims) (pod_key : Option String) (acc : PodNetMetrics) :
    List Sample × PodNetMetrics :=
  parse_network_go report container_dimensions pod_key interfaces acc

/-- The alias-scan of `_get_container_dimensions`: the first alias of the
spec that occurs as a substring of the metrics key, `""` when none does. -/
def container_alias_id (container : String) (container_spec : ContainerSpec) : String :=
  (container_spec.aliases.find? (fun a => strIn a container)).getD ""

/-- `Kubernetes._get_container_dimensions`: correlate a cAdvisor metrics key
with the records built from the kubelet pod list, returning
`(pod_key_or_none, dimension dict)`. In the alias-hit branch the returned
dict is the stored record itself (passed by reference in the source). -/
def get_container_dimensions (container : String) (instance_dimensions : Dims)
    (container_spec : ContainerSpec) (container_dimension_map : List (String × Dims))
    (pod_dimension_map : List (String × Dims)) : Option String × Dims :=
  let container_id := container_alias_id container container_spec
  match aGet container_dimension_map container_id with
  | some container_dimensions =>
    let pod_key :=
      (aGet container_dimensions "pod_name").getD "" ++
        (aGet container_dimensions "namespace").getD ""
    (some pod_key, container_dimensions)
  | none =>
    let container_dimensions := aSet instance_dimensions "image" container_spec.image
    let container_dimensions := aSet container_dimensions "container_name" container_spec.aliases.headI
    match container_spec.labels with
    | none => (none, container_dimensions)
    | some container_labels =>
      if dContains container_labels "io.kubernetes.pod.namespace" &&
          dContains container_labels "io.kubernetes.pod.name" then
        let pod_key :=
          (aGet container_labels "io.kubernetes.pod.name").getD "" ++
            (aGet container_labels "io.kubernetes.pod.namespace").getD ""
        match aGet pod_dimension_map pod_key with
        | some pd =>
          let container_dimensions := dUpdate container_dimensions pd
          let container_dimensions :=
            aSet container_dimensions "container_name"
              ((aGet container_labels "io.kubernetes.container.name").getD "")
          (some pod_key, container_dimensions)
        | none => (none, container_dimensions)
      else (none, container_dimensions)

/-- Inner loop of `Kubernetes._process_pods` over `containerStatuses`: build
`name2id` and the shared container dimension map, emit the two per-container
gauges when reporting is on, and sum the restart counts. -/
def statuses_go (report : Bool) (pod_dimensions : Dims) :
    List ContainerStatus → List (String × String) → List (String × Dims) → ℚ →
    List Sample × List (String × String) × List (String × Dims) × ℚ
  | [], n2i, cdm, rc => ([], n2i, cdm, rc)
  | cs :: rest, n2i, cdm, rc =>
    let container_dimensions := aSet (aSet pod_dimensions "container_name" cs.name) "image" cs.image
    let container_id := String.mk (lastSplitTail ['/', '/'] (cs.containerID.getD "").data)
    let n2i1 := aSet n2i cs.name container_id
    let cdm1 := aSet cdm container_id container_dimensions
    let s :=
      if report then
        [⟨"container.ready_status", some (if cs.ready then 0 else 1), container_dimensions, "gauge", true⟩,
         ⟨"container.restart_count", some cs.restartCount, container_dimensions, "gauge", true⟩]
      else []
    let r := statuses_go report pod_dimensions rest n2i1 cdm1 (rc + cs.restartCount)
    (s ++ r.1, r.2.1, r.2.2.1, r.2.2.2)

/-- `Kubernetes._report_container_limits`: per spec container, the cpu and
memory limit/request gauges; a missing `resources.limits` or
`resources.requests` is the caught-KeyError path and emits nothing for that
group. The `.getD 0` on the conversions stands for values the source would
emit after a successful `float()` parse. -/
def report_container_limits_go (cdm : List (String × Dims)) (n2i : List (String × String)) :
    List PodContainer → List Sample
  | [] => []
  | c :: rest =>
    let container_dimensions := (aGet cdm ((aGet n2i c.name).getD "")).getD []
    let s1 :=
      match c.limits with
      | none => []
      | some lim =>
        (match lim.cpu with
         | some cpu_limit =>
           [⟨"container.cpu.limit", some ((convert_cpu_to_cores cpu_limit).getD 0),
             container_dimensions, "gauge", true⟩]
         | none => []) ++
        (match lim.memory with
         | some memory_limit =>
           [⟨"container.memory.limit_bytes", some ((convert_memory_string_to_bytes memory_limit).getD 0),
             container_dimensions, "gauge", true⟩]
         | none => [])
    let s2 :=
      match c.requests with
      | none => []
      | some req =>
        (match req.cpu with
         | some cpu_request =>
           [⟨"container.request.cpu", some ((convert_cpu_to_cores cpu_request).getD 0),
             container_dimensions, "gauge", true⟩]
         | none => []) ++
        (match req.memory with
         | some memory_request =>
           [⟨"container.request.memory_bytes", some ((convert_memory_string_to_bytes memory_request).getD 0),
             container_dimensions, "gauge", true⟩]
         | none => [])
    s1 ++ s2 ++ report_container_limits_go cdm n2i rest

/-- `Kubernetes._process_pods`: pods missing spec containers or container
statuses are skipped; otherwise build the pod record, process statuses,
optionally report limits, and emit the two pod-level gauges. -/
def process_pods_go (report : Bool) (kubernetes_labels : List String) (conn : Option ConnFn)
    (dimensions : Dims) :
    List Pod → List (String × Dims) → List (String × Dims) →
    List Sample × List (String × Dims) × List (String × Dims)
  | [], cdm, pdm => ([], cdm, pdm)
  | pod :: rest, cdm, pdm =>
    if !(truthyList pod.containers) || !(truthyList pod.containerStatuses) then
      process_pods_go report kubernetes_labels conn dimensions rest cdm pdm
    else
      let pod_dimensions := dUpdate dimensions (get_pod_dimensions conn pod.metadata kubernetes_labels)
      let pod_key :=
        (aGet pod_dimensions "pod_name").getD "" ++ (aGet pod_dimensions "namespace").getD ""
      let pdm1 := aSet pdm pod_key pod_dimensions
      let st := statuses_go report pod_dimensions (pod.containerStatuses.getD []) [] cdm 0
      let s2 :=
        if report then report_container_limits_go st.2.2.1 st.2.1 (pod.containers.getD []) else []
      let s3 : List Sample :=
        [⟨"pod.restart_count", some st.2.2.2, pod_dimensions, "gauge", true⟩,
         ⟨"pod.phase", aGet POD_PHASE pod.phase, pod_dimensions, "gauge", true⟩]
      let r := process_pods_go report kubernetes_labels conn dimensions rest st.2.2.1 pdm1
      (st.1 ++ s2 ++ s3 ++ r.1, r.2.1, r.2.2)

/-- Inner loop shared by `send_pod_metrics` and `send_network_pod_metrics`
(both run `_send_metrics("pod." + metric_name, ...)` over a metric dict,
threading the same mutated dimension dict through the calls). -/
def send_pod_one : QMap → Dims → List Sample × Dims
  | [], d => ([], d)
  | (metric_name, metric_value) :: rest, d =>
    let e :=
      send_metrics ("pod." ++ metric_name) metric_value d
        (catalogGet metric_name).1 (catalogGet metric_name).2
    let r := send_pod_one rest e.2
    (e.1 ++ r.1, r.2)

/-- `Kubernetes.send_pod_metrics`: the pod dimension record is taken from the
map without a copy, so the `unit` mutations of `_send_metrics` land in the
stored record; this is modelled by writing the threaded dict back. -/
def send_pod_metrics : PodMetrics → List (String × Dims) → List Sample × List (String × Dims)
  | [], pdm => ([], pdm)
  | (pod_key, pod_metrics) :: rest, pdm =>
    let pod_dimensions := (aGet pdm pod_key).getD []
    let e := send_pod_one pod_metrics pod_dimensions
    let pdm1 := aSet pdm pod_key e.2
    let r := send_pod_metrics rest pdm1
    (e.1 ++ r.1, r.2)

/-- Per-pod interface loop of `send_network_pod_metrics`: each interface
works on a fresh `.copy()` of the pod dimensions plus its `interface` key,
so nothing is written back to the stored pod record. -/
def net_ifaces_go : List (String × QMap) → Dims → List Sample
  | [], _ => []
  | (network_interface, metrics) :: rest, pod_dimensions =>
    let pod_network_dimensions := aSet pod_dimensions "interface" network_interface
    (send_pod_one metrics pod_network_dimensions).1 ++ net_ifaces_go rest pod_dimensions

/-- `Kubernetes.send_network_pod_metrics`. -/
def send_network_pod_metrics : PodNetMetrics → List (String × Dims) → List Sample
  | [], _ => []
  | (pod_key, network_interfaces) :: rest, pdm =>
    let pod_dimensions := (aGet pdm pod_key).getD []
    net_ifaces_go network_interfaces pod_dimensions ++ send_network_pod_metrics rest pdm

/-- Main loop of `Kubernetes._process_containers`: correlate each metrics
entry, take the first snapshot, run the four section processors (memory and
cpu thread the container dimension dict; filesystem and network work on
copies), and — when correlation hit a stored record — write the mutated dict
back into the shared container dimension map. -/
def process_containers_go (report : Bool) (containers_spec : List (String × ContainerSpec))
    (dims : Dims) (pod_dimension_map : List (String × Dims)) :
    List (String × List CadvisorSnapshot) → List (String × Dims) → PodMetrics → PodNetMetrics →
    List Sample × List (String × Dims) × PodMetrics × PodNetMetrics
  | [], cdm, pm, pnm => ([], cdm, pm, pnm)
  | (container, snaps) :: rest, cdm, pm, pnm =>
    let cspec := (aGet containers_spec container).getD ⟨[], "", none⟩
    let corr := get_container_dimensions container dims cspec cdm pod_dimension_map
    let pod_key := corr.1
    let snap := snaps.headI
    let mem :=
      if snap.has_memory && !snap.memory.isEmpty then
        parse_memory report snap.memory corr.2 pod_key pm
      else ([], corr.2, pm)
    let s2 :=
      match snap.filesystem with
      | some fs => if snap.has_filesystem && !fs.isEmpty then parse_filesystem report fs mem.2.1 else []
      | none => []
    let net :=
      match snap.network with
      | some ifaces =>
        if snap.has_network then parse_network report ifaces mem.2.1 pod_key pnm else ([], pnm)
      | none => ([], pnm)
    let cpu :=
      match snap.cpu with
      | some usage =>
        if snap.has_cpu then parse_cpu report usage mem.2.1 pod_key mem.2.2
        else ([], mem.2.1, mem.2.2)
      | none => ([], mem.2.1, mem.2.2)
    let cdm1 :=
      if dContains cdm (container_alias_id container cspec) then
        aSet cdm (container_alias_id container cspec) cpu.2.1
      else cdm
    let r :=
      process_containers_go report containers_spec dims pod_dimension_map rest cdm1 cpu.2.2 net.2
    (mem.1 ++ s2 ++ net.1 ++ cpu.1 ++ r.1, r.2.1, r.2.2.1, r.2.2.2)

/-- `Kubernetes._process_containers`: a cAdvisor fetch failure is logged and
aborts the whole container phase; otherwise process every metrics entry and
flush the two pod accumulators. -/
def process_containers (report : Bool)
    (fetch : Except String (List (String × ContainerSpec) × List (String × List CadvisorSnapshot)))
    (dimensions : Dims) (container_dimension_map pod_dimension_map : List (String × Dims)) :
    List Sample :=
  match fetch with
  | .error _ => []
  | .ok (containers_spec, containers_metrics) =>
    let r :=
      process_containers_go report containers_spec dimensions pod_dimension_map
        containers_metrics container_dimension_map [] []
    let flush := send_pod_metrics r.2.2.1 pod_dimension_map
    let sn := send_network_pod_metrics r.2.2.2 flush.2
    r.1 ++ flush.1 ++ sn

/-- `Kubernetes.check`: delete the hostname dimension, emit the health gauge,
then — only when the pod-list fetch succeeded — run pod processing followed
by container processing (both live in the `else:` of the fetch). -/
def check (report : Bool) (kubernetes_labels : List String) (conn : Option ConnFn)
    (instance_dimensions : Dims)
    (health_result : Except String (List String))
    (pods_result : Except String (List Pod))
    (cadvisor_result : Except String (List (String × ContainerSpec) × List (String × List CadvisorSnapshot))) :
    List Sample :=
  let dimensions := dDel instance_dimensions "hostname"
  let kubelet_health_status := get_api_health health_result
  let health_sample : Sample :=
    ⟨"kubelet.health_status", some (if kubelet_health_status then 0 else 1), dimensions, "gauge", false⟩
  match pods_result with
  | .error _ => [health_sample]
  | .ok pods =>
    let pp := process_pods_go report kubernetes_labels conn dimensions pods [] []
    let container_samples := process_containers report cadvisor_result dimensions pp.2.1 pp.2.2
    health_sample :: (pp.1 ++ container_samples)

/-- Lookup in the network pod accumulator, absent entries reading as 0. -/
def netGetD (acc : PodNetMetrics) (p iface m : String) : ℚ :=
  ((aGet ((aGet acc p).getD []) iface).getD [] |> (aGet · m)).getD 0

/-- The sequence of `_parse_network` calls `_process_containers` makes: one
per container entry, threading the network accumulator through. -/
def run_network (report : Bool) (container_dimensions : Dims) :
    List (Option String × List NetInterface) → PodNetMetrics → PodNetMetrics
  | [], acc => acc
  | e :: rest, acc =>
    run_network report container_dimensions rest
      (parse_network report e.2 container_dimensions e.1 acc).2

/-- Sum the counters a single interface contributes to canonical metric `m`:
one term per network-table field mapped to `m` and present on the interface. -/
def tblContrib : List (String × String) → QMap → String → ℚ
  | [], _, _ => 0
  | fm :: rest, counters, n =>
    (if fm.2 = n then (aGet counters fm.1).getD 0 else 0) + tblContrib rest counters n

/-- Sum of the contributions of the interfaces named `iface`. -/
def ifacesContrib : List NetInterface → String → String → ℚ
  | [], _, _ => 0
  | it :: rest, iface, n =>
    (if it.name = iface then tblContrib network_metrics it.counters n else 0) +
      ifacesContrib rest iface n

/-- Sum of the contributions of the container entries whose truthy pod key
equals `p`. -/
def entriesContrib : List (Option String × List NetInterface) → String → String → String → ℚ
  | [], _, _, _ => 0
  | e :: rest, p, iface, n =>
    (if truthyKey e.1 = true ∧ keyOf e.1 = p then ifacesContrib e.2 iface n else 0) +
      entriesContrib rest p iface n

theorem aGet_nil {α : Type} (k : String) : aGet ([] : List (String × α)) k = none := rfl

theorem aGet_cons {α : Type} (p : String × α) (rest : List (String × α)) (k : String) :
    aGet (p :: rest) k = if p.1 == k then some p.2 else aGet rest k := by
  cases h : p.1 == k <;> simp [aGet, List.find?, h]

theorem aGet_aUpd_same {α : Type} (m : List (String × α)) (k : String) (f : Option α → α) :
    aGet (aUpd m k f) k = some (f (aGet m k)) := by
  induction m with
  | nil => simp [aUpd, aGet_cons, aGet_nil]
  | cons p rest ih =>
    by_cases h : p.1 = k
    · simp [aUpd, h, aGet_cons]
    · have hb : (p.1 == k) = false := by simp [h]
      simp [aUpd, hb, aGet_cons, ih]

theorem aGet_aUpd_ne {α : Type} (m : List (String × α)) (k k' : String) (f : Option α → α)
    (h : k' ≠ k) : aGet (aUpd m k f) k' = aGet m k' := by
  induction m with
  | nil =>
    have hb : (k == k') = false := by simp [Ne.symm h]
    simp [aUpd, aGet_cons, aGet_nil, hb]
  | cons p rest ih =>
    by_cases hpk : p.1 = k
    · have hb : (p.1 == k') = false := by simp [hpk, Ne.symm h]
      simp [aUpd, hpk, aGet_cons, hb, Ne.symm h]
    · have hb : (p.1 == k) = false := by simp [hpk]
      simp [aUpd, hb, aGet_cons, ih]

theorem aGet_aSet_same {α : Type} (m : List (String × α)) (k : String) (v : α) :
    aGet (aSet m k v) k = some v := by
  simp [aSet, aGet_aUpd_same]

theorem aGet_aSet_ne {α : Type} (m : List (String × α)) (k k' : String) (v : α)
    (h : k' ≠ k) : aGet (aSet m k v) k' = aGet m k' := by
  simp [aSet, aGet_aUpd_ne _ _ _ _ h]

theorem aSet_aSet_same {α : Type} (m : List (String × α)) (k : String) (a b : α) :
    aSet (aSet m k a) k b = aSet m k b := by
  induction m with
  | nil => simp [aSet, aUpd]
  | cons p rest ih =>
    by_cases h : p.1 = k
    · simp [aSet, aUpd, h]
    · have hb : (p.1 == k) = false := by simp [h]
      simp only [aSet, aUpd, hb, if_false, cond_false]
      simp [aSet] at ih
      simp [ih]

theorem dContains_aSet_ne {α : Type} (m : List (String × α)) (k k' : String) (v : α)
    (h : k' ≠ k) : dContains (aSet m k v) k' = dContains m k' := by
  simp [dContains, aGet_aSet_ne _ _ _ _ h]

theorem qAdd_getD_same (m : QMap) (k : String) (v : ℚ) :
    (aGet (qAdd m k v) k).getD 0 = (aGet m k).getD 0 + v := by
  rw [qAdd, aGet_aUpd_same]
  cases aGet m k <;> simp

theorem qAdd_getD_ne (m : QMap) (k k' : String) (v : ℚ) (h : k' ≠ k) :
    (aGet (qAdd m k v) k').getD 0 = (aGet m k').getD 0 := by
  rw [qAdd, aGet_aUpd_ne _ _ _ _ h]

theorem netAdd_netGetD (acc : PodNetMetrics) (k i m : String) (v : ℚ) (p j n : String) :
    netGetD (netAdd acc k i m v) p j n =
      netGetD acc p j n + (if k = p ∧ i = j ∧ m = n then v else 0) := by
  simp only [netGetD, netAdd]
  by_cases hp : k = p
  · subst hp
    rw [aGet_aUpd_same]
    simp only [Option.getD_some]
    by_cases hi : i = j
    · subst hi
      rw [aGet_aUpd_same]
      simp only [Option.getD_some]
      by_cases hm : m = n
      · subst hm
        rw [qAdd_getD_same]
        simp
      · rw [qAdd_getD_ne _ _ _ _ (Ne.symm hm)]
        simp [hm]
    · rw [aGet_aUpd_ne _ _ _ _ (Ne.symm hi)]
      simp [hi]
  · rw [aGet_aUpd_ne _ _ _ _ (Ne.symm hp)]
    simp [hp]

theorem dContains_unit_pod_name (d : Dims) (x : String) :
    dContains (aSet d "unit" x) "pod_name" = dContains d "pod_name" :=
  dContains_aSet_ne _ _ _ _ (by decide)

theorem send_metrics_go_names (n : String) (v : ℚ) (T U : List String) :
    ∀ (ts : List String) (d : Dims) (s : Sample),
      s ∈ (send_metrics_go n v T U ts d).1 → s.name = n ∨ s.name = n ++ "_sec" := by
  intro ts
  induction ts with
  | nil => intro d s hs; simp [send_metrics_go] at hs
  | cons t rest ih =>
    intro d s hs
    simp only [send_metrics_go] at hs
    by_cases h1 : t == "rate"
    · simp only [h1, if_true, List.mem_cons] at hs
      rcases hs with h | h
      · right; rw [h]
      · exact ih _ s h
    · simp only [h1, Bool.false_eq_true, if_false] at hs
      by_cases h2 : t == "gauge"
      · simp only [h2, if_true, List.mem_cons] at hs
        rcases hs with h | h
        · left; rw [h]
        · exact ih _ s h
      · simp only [h2, Bool.false_eq_true, if_false] at hs
        exact ih _ s hs

theorem send_metrics_gauge_eq (n : String) (v : ℚ) (d : Dims) (u0 : String) :
    send_metrics n v d ["gauge"] [u0] =
      ([⟨n, some v, aSet d "unit" u0, "gauge", dContains d "pod_name"⟩], aSet d "unit" u0) := by
  have h1 : List.findIdx (fun y => y == "gauge") ["gauge"] = 0 := rfl
  simp [send_metrics, send_metrics_go, pyIndex, h1, dContains_unit_pod_name]

theorem send_metrics_gauge_rate_eq (n : String) (v : ℚ) (d : Dims) (u0 u1 : String) :
    send_metrics n v d ["gauge", "rate"] [u0, u1] =
      ([⟨n, some v, aSet d "unit" u0, "gauge", dContains d "pod_name"⟩,
        ⟨n ++ "_sec", some v, aSet d "unit" u1, "rate", dContains d "pod_name"⟩],
       aSet d "unit" u1) := by
  have h1 : List.findIdx (fun y => y == "gauge") ["gauge", "rate"] = 0 := rfl
  have h2 : List.findIdx (fun y => y == "rate") ["gauge", "rate"] = 1 := rfl
  simp [send_metrics, send_metrics_go, pyIndex, h1, h2, dContains_unit_pod_name, aSet_aSet_same]

theorem getLast_drop_singleton {c : Char} :
    ∀ (l : List Char), l.getLast? = some c → ∃ i, i < l.length ∧ l.drop i = [c] := by
  intro l
  induction l with
  | nil => intro h; simp at h
  | cons a t ih =>
    intro h
    cases t with
    | nil =>
      simp only [List.getLast?_singleton, Option.some.injEq] at h
      exact ⟨0, by simp, by simp [h]⟩
    | cons b u =>
      have h2 : (b :: u).getLast? = some c := by
        rwa [List.getLast?_cons_cons] at h
      obtain ⟨i, hi, hd⟩ := ih h2
      exact ⟨i + 1, by simpa using hi, by simpa using hd⟩

theorem strIn_m_of_ends (s : String) (h : s.data.getLast? = some 'm') :
    strIn "m" s = true := by
  obtain ⟨i, hi, hd⟩ := getLast_drop_singleton s.data h
  rw [strIn, List.any_eq_true]
  refine ⟨i, List.mem_range.mpr (by omega), ?_⟩
  rw [hd]
  decide

/-- C8: a CPU quantity string ending in `m` converts to the numeric text
before the first `m` divided by 1000, and a CPU quantity string not
containing `m` at all parses directly and passes through unchanged. -/
theorem C8_theorem (s : String) (q : ℚ) :
    (s.data.getLast? = some 'm' →
      pyFloat (String.mk (beforeChar 'm' s.data)) = some q →
      convert_cpu_to_cores s = some (q / 1000)) ∧
    (strIn "m" s = false → pyFloat s = some q → convert_cpu_to_cores s = some q) := by
  constructor
  · intro h1 h2
    rw [convert_cpu_to_cores, strIn_m_of_ends s h1]
    simp [h2]
  · intro h1 h2
    rw [convert_cpu_to_cores, h1]
    simpa using h2

/-- C8 witness: `"500m"` converts to `0.5` and `"2"` converts to `2`. -/
theorem C8_witness :
    convert_cpu_to_cores "500m" = some (500 / 1000 : ℚ) ∧
      convert_cpu_to_cores "2" = some (2 : ℚ) :=
  ⟨( C8_theorem "500m" 500).1 (by decide) (by decide),
   ( C8_theorem "2" 2).2 (by decide) (by decide)⟩

/-- C5 counterexample: owner name `"web"` has no hyphen, so the claimed
deployment dimension (owner name minus its last hyphen-separated segment)
would be the empty string; even though the secondary lookup succeeds and the
revision marker is present, the code treats the empty derived name as falsy
and sets `replica_set = "web"`, setting no `deployment` dimension at all. -/
theorem C5_counterexample :
    aGet (set_pod_owner_dimension
        (some (fun _ _ => Except.ok [("deployment.kubernetes.io/revision", "1")]))
        [("namespace", "default")] "ReplicaSet" "web") "deployment" = none ∧
    aGet (set_pod_owner_dimension
        (some (fun _ _ => Except.ok [("deployment.kubernetes.io/revision", "1")]))
        [("namespace", "default")] "ReplicaSet" "web") "replica_set" = some "web" :=
  ⟨rfl, rfl⟩

/-- C5 amended: with a ReplicaSet owner, a successful secondary lookup whose
annotation map carries the revision marker sets `deployment` to the owner
name minus its last hyphen-separated segment provided that stripped name is
non-empty; when the stripped name is empty, and likewise when the secondary
lookup fails or no connector is configured, `replica_set` is set to the raw
owner name instead, the error never propagating. -/
theorem C5_theorem (f : ConnFn) (pd : Dims) (name : String) (anns : Dims)
    (hok : f name ((aGet pd "namespace").getD "") = .ok anns)
    (hrev : (aGet anns "deployment.kubernetes.io/revision").isSome = true) :
    (¬ (String.mk (joinChar '-' ((splitOnChar '-' name.data).dropLast))).isEmpty = true →
      set_pod_owner_dimension (some f) pd "ReplicaSet" name =
        aSet pd "deployment" (String.mk (joinChar '-' ((splitOnChar '-' name.data).dropLast)))) ∧
    ((String.mk (joinChar '-' ((splitOnChar '-' name.data).dropLast))).isEmpty = true →
      set_pod_owner_dimension (some f) pd "ReplicaSet" name = aSet pd "replica_set" name) ∧
    (∀ g : ConnFn, g name ((aGet pd "namespace").getD "") = .error () →
      set_pod_owner_dimension (some g) pd "ReplicaSet" name = aSet pd "replica_set" name) ∧
    set_pod_owner_dimension none pd "ReplicaSet" name = aSet pd "replica_set" name := by
  refine ⟨?_, ?_, ?_, ?_⟩
  · intro hne
    simp only [set_pod_owner_dimension, get_deployment_name, hok, hrev, if_true]
    simp [hne]
  · intro he
    simp only [set_pod_owner_dimension, get_deployment_name, hok, hrev, if_true]
    simp [he]
  · intro g hg
    simp [set_pod_owner_dimension, get_deployment_name, hg]
  · simp [set_pod_owner_dimension]

/-- C5 witness: `"web-7d9f8c6b8"` with a successful marker-bearing lookup
resolves to `deployment = "web"`; a failing lookup resolves to
`replica_set = "web-7d9f8c6b8"`. -/
theorem C5_witness :
    set_pod_owner_dimension
        (some (fun _ _ => Except.ok [("deployment.kubernetes.io/revision", "1")]))
        [("namespace", "default")] "ReplicaSet" "web-7d9f8c6b8" =
      [("namespace", "default"), ("deployment", "web")] ∧
    set_pod_owner_dimension (some (fun _ _ => Except.error ()))
        [("namespace", "default")] "ReplicaSet" "web-7d9f8c6b8" =
      [("namespace", "default"), ("replica_set", "web-7d9f8c6b8")] := by
  constructor
  · have h :=
      (C5_theorem (fun _ _ => Except.ok [("deployment.kubernetes.io/revision", "1")])
        [("namespace", "default")] "web-7d9f8c6b8"
        [("deployment.kubernetes.io/revision", "1")] rfl rfl).1 (by decide)
    exact h
  · have h :=
      (C5_theorem (fun _ _ => Except.ok [("deployment.kubernetes.io/revision", "1")])
        [("namespace", "default")] "web-7d9f8c6b8"
        [("deployment.kubernetes.io/revision", "1")] rfl rfl).2.2.1
        (fun _ _ => Except.error ()) rfl
    exact h

/-- C6: at a filesystem entry carrying `reads_completed = 5` (together with
`writes_completed = 3` and `io_in_progress = 2`), the walk of the source's
filesystem table emits `container.fs.writes` (gauge and rate) and
`container.fs.io_current`, but no `container.fs.reads` sample: the table key
is misspelled `reads_completes`, so the documented `reads_completed` field
can never match it. -/
theorem C6_theorem :
    ((parse_filesystem true
        [⟨"sda", [("reads_completed", 5), ("writes_completed", 3), ("io_in_progress", 2)]⟩]
        []).map (fun s => s.name) =
      ["container.fs.writes", "container.fs.writes_sec", "container.fs.io_current"]) ∧
    (∀ s ∈ parse_filesystem true
        [⟨"sda", [("reads_completed", 5), ("writes_completed", 3), ("io_in_progress", 2)]⟩] [],
      s.name ≠ "container.fs.reads") := by
  decide

theorem send_metrics_go_values (n : String) (v : ℚ) (T U : List String) :
    ∀ (ts : List String) (d : Dims) (s : Sample),
      s ∈ (send_metrics_go n v T U ts d).1 → s.value = some v := by
  intro ts
  induction ts with
  | nil => intro d s hs; simp [send_metrics_go] at hs
  | cons t rest ih =>
    intro d s hs
    simp only [send_metrics_go] at hs
    by_cases h1 : t == "rate"
    · simp only [h1, if_true, List.mem_cons] at hs
      rcases hs with h | h
      · rw [h]
      · exact ih _ s h
    · simp only [h1, Bool.false_eq_true, if_false] at hs
      by_cases h2 : t == "gauge"
      · simp only [h2, if_true, List.mem_cons] at hs
        rcases hs with h | h
        · rw [h]
        · exact ih _ s h
      · simp only [h2, Bool.false_eq_true, if_false] at hs
        exact ih _ s hs

theorem parse_cpu_go_values (report : Bool) (usage : QMap) (pk : Option String) :
    ∀ (tbl : List (String × String)) (cd : Dims) (pm : PodMetrics) (s : Sample),
      s ∈ (parse_cpu_go report usage pk tbl cd pm).1 →
      ∃ g w, aGet usage g = some w ∧ s.value = some (w / 1000000000) := by
  intro tbl
  induction tbl with
  | nil => intro cd pm s hs; simp [parse_cpu_go] at hs
  | cons gn rest ih =>
    intro cd pm s hs
    obtain ⟨g, n⟩ := gn
    simp only [parse_cpu_go] at hs
    rcases hg : aGet usage g with _ | w <;> rw [hg] at hs
    · exact ih _ _ _ hs
    · simp only [List.mem_append] at hs
      rcases hs with h | h
      · cases report with
        | false => simp at h
        | true =>
          simp only [if_true] at h
          exact ⟨g, w, hg, send_metrics_go_values _ _ _ _ _ _ _ h⟩
      · exact ih _ _ _ h

theorem parse_cpu_go_mem (usage : QMap) (pk : Option String) (f m : String) (v : ℚ)
    (hv : aGet usage f = some v) :
    ∀ (tbl : List (String × String)) (cd : Dims) (pm : PodMetrics),
      (f, m) ∈ tbl →
      (∀ fm ∈ tbl,
        catalogGet fm.2 = (["gauge", "rate"], ["core_seconds", "cores_seconds_per_second"])) →
      ((⟨"container." ++ m, some (v / 1000000000), aSet cd "unit" "core_seconds", "gauge",
          dContains cd "pod_name"⟩ : Sample) ∈ (parse_cpu_go true usage pk tbl cd pm).1 ∧
       (⟨("container." ++ m) ++ "_sec", some (v / 1000000000),
          aSet cd "unit" "cores_seconds_per_second", "rate",
          dContains cd "pod_name"⟩ : Sample) ∈ (parse_cpu_go true usage pk tbl cd pm).1) := by
  intro tbl
  induction tbl with
  | nil => intro cd pm h _; simp at h
  | cons gn rest ih =>
    intro cd pm hmem hcat
    obtain ⟨g, n⟩ := gn
    have hcat_rest : ∀ fm ∈ rest,
        catalogGet fm.2 = (["gauge", "rate"], ["core_seconds", "cores_seconds_per_second"]) :=
      fun fm hf => hcat fm (List.mem_cons_of_mem _ hf)
    rcases List.mem_cons.mp hmem with heq | htail
    · cases heq
      have hc := hcat (f, m) (List.mem_cons_self _ _)
      simp only at hc
      simp only [parse_cpu_go, hv, hc, if_true]
      rw [send_metrics_gauge_rate_eq]
      constructor
      · exact List.mem_append_left _ (List.mem_cons_self _ _)
      · exact List.mem_append_left _ (List.mem_cons_of_mem _ (List.mem_cons_self _ _))
    · have hcatn := hcat (g, n) (List.mem_cons_self _ _)
      simp only at hcatn
      simp only [parse_cpu_go]
      rcases hg : aGet usage g with _ | w
      · exact ih cd pm htail hcat_rest
      · simp only [hcatn, if_true]
        rw [send_metrics_gauge_rate_eq]
        have hrec := ih (aSet cd "unit" "cores_seconds_per_second")
          (add_pod_metric n (w / 1000000000) pk pm) htail hcat_rest
        rw [aSet_aSet_same, aSet_aSet_same, dContains_unit_pod_name] at hrec
        exact ⟨List.mem_append_right _ hrec.1, List.mem_append_right _ hrec.2⟩

/-- C7: for every cpu usage field present in the snapshot (a `(raw field,
canonical name)` pair of the cpu table), the emitted gauge and rate samples
carry the raw nanosecond value divided by 1000000000; moreover every sample
`_parse_cpu` emits carries the value of some present raw field divided by
1000000000. -/
theorem C7_theorem (usage : QMap) (d : Dims) (pk : Option String) (pm : PodMetrics)
    (f m : String) (v : ℚ) (hm : (f, m) ∈ cpu_metrics) (hv : aGet usage f = some v) :
    ((⟨"container." ++ m, some (v / 1000000000), aSet d "unit" "core_seconds", "gauge",
        dContains d "pod_name"⟩ : Sample) ∈ (parse_cpu true usage d pk pm).1 ∧
     (⟨("container." ++ m) ++ "_sec", some (v / 1000000000),
        aSet d "unit" "cores_seconds_per_second", "rate",
        dContains d "pod_name"⟩ : Sample) ∈ (parse_cpu true usage d pk pm).1) ∧
    (∀ (r : Bool), ∀ s ∈ (parse_cpu r usage d pk pm).1,
      ∃ g w, aGet usage g = some w ∧ s.value = some (w / 1000000000)) := by
  constructor
  · exact parse_cpu_go_mem usage pk f m v hv cpu_metrics d pm hm (by decide)
  · intro r s hs
    exact parse_cpu_go_values r usage pk cpu_metrics d pm s hs

/-- C7 witness: a raw `total` reading of 1500000000 ns emits
`container.cpu.total_time` with value 1500000000 / 1000000000 = 1.5 s. -/
theorem C7_witness :
    ((⟨"container." ++ "cpu.total_time", some ((1500000000 : ℚ) / 1000000000),
        aSet [] "unit" "core_seconds", "gauge",
        dContains ([] : Dims) "pod_name"⟩ : Sample) ∈
      (parse_cpu true [("total", 1500000000)] [] none []).1 ∧
     (⟨("container." ++ "cpu.total_time") ++ "_sec", some ((1500000000 : ℚ) / 1000000000),
        aSet [] "unit" "cores_seconds_per_second", "rate",
        dContains ([] : Dims) "pod_name"⟩ : Sample) ∈
      (parse_cpu true [("total", 1500000000)] [] none []).1) ∧
    (∀ (r : Bool), ∀ s ∈ (parse_cpu r [("total", 1500000000)] [] none []).1,
      ∃ g w, aGet [("total", (1500000000 : ℚ))] g = some w ∧
        s.value = some (w / 1000000000)) :=
  C7_theorem [("total", 1500000000)] [] none [] "total" "cpu.total_time" 1500000000
    (by decide) (by decide)

theorem add_pod_metric_none (m : String) (v : ℚ) (pm : PodMetrics) :
    add_pod_metric m v none pm = pm := rfl

theorem parse_memory_go_acc_indep (md : QMap) (pk : Option String) (r r' : Bool) :
    ∀ (tbl : List (String × String)) (cd cd' : Dims) (pm : PodMetrics),
      (parse_memory_go r md pk tbl cd pm).2.2 = (parse_memory_go r' md pk tbl cd' pm).2.2 := by
  intro tbl
  induction tbl with
  | nil => intro cd cd' pm; rfl
  | cons gn rest ih =>
    intro cd cd' pm
    obtain ⟨g, n⟩ := gn
    simp only [parse_memory_go]
    rcases hg : aGet md g with _ | w
    · exact ih cd cd' pm
    · exact ih _ _ _

theorem parse_memory_go_false_samples (md : QMap) (pk : Option String) :
    ∀ (tbl : List (String × String)) (cd : Dims) (pm : PodMetrics),
      (parse_memory_go false md pk tbl cd pm).1 = [] := by
  intro tbl
  induction tbl with
  | nil => intro cd pm; rfl
  | cons gn rest ih =>
    intro cd pm
    obtain ⟨g, n⟩ := gn
    simp only [parse_memory_go]
    rcases hg : aGet md g with _ | w
    · exact ih cd pm
    · simp only [Bool.false_eq_true, if_false, List.nil_append]
      exact ih _ _

theorem parse_memory_go_none_acc (md : QMap) (r : Bool) :
    ∀ (tbl : List (String × String)) (cd : Dims) (pm : PodMetrics),
      (parse_memory_go r md none tbl cd pm).2.2 = pm := by
  intro tbl
  induction tbl with
  | nil => intro cd pm; rfl
  | cons gn rest ih =>
    intro cd pm
    obtain ⟨g, n⟩ := gn
    simp only [parse_memory_go]
    rcases hg : aGet md g with _ | w
    · exact ih cd pm
    · exact ih _ _

theorem parse_memory_go_samples_indep (md : QMap) (r : Bool) (pk pk' : Option String) :
    ∀ (tbl : List (String × String)) (cd : Dims) (pm pm' : PodMetrics),
      (parse_memory_go r md pk tbl cd pm).1 = (parse_memory_go r md pk' tbl cd pm').1 := by
  intro tbl
  induction tbl with
  | nil => intro cd pm pm'; rfl
  | cons gn rest ih =>
    intro cd pm pm'
    obtain ⟨g, n⟩ := gn
    simp only [parse_memory_go]
    rcases hg : aGet md g with _ | w
    · exact ih cd pm pm'
    · dsimp only
      rw [ih _ _ (add_pod_metric n w pk' pm')]

theorem parse_cpu_go_acc_indep (usage : QMap) (pk : Option String) (r r' : Bool) :
    ∀ (tbl : List (String × String)) (cd cd' : Dims) (pm : PodMetrics),
      (parse_cpu_go r usage pk tbl cd pm).2.2 = (parse_cpu_go r' usage pk tbl cd' pm).2.2 := by
  intro tbl
  induction tbl with
  | nil => intro cd cd' pm; rfl
  | cons gn rest ih =>
    intro cd cd' pm
    obtain ⟨g, n⟩ := gn
    simp only [parse_cpu_go]
    rcases hg : aGet usage g with _ | w
    · exact ih cd cd' pm
    · exact ih _ _ _

theorem parse_cpu_go_false_samples (usage : QMap) (pk : Option String) :
    ∀ (tbl : List (String × String)) (cd : Dims) (pm : PodMetrics),
      (parse_cpu_go false usage pk tbl cd pm).1 = [] := by
  intro tbl
  induction tbl with
  | nil => intro cd pm; rfl
  | cons gn rest ih =>
    intro cd pm
    obtain ⟨g, n⟩ := gn
    simp only [parse_cpu_go]
    rcases hg : aGet usage g with _ | w
    · exact ih cd pm
    · simp only [Bool.false_eq_true, if_false, List.nil_append]
      exact ih _ _

theorem parse_cpu_go_none_acc (usage : QMap) (r : Bool) :
    ∀ (tbl : List (String × String)) (cd : Dims) (pm : PodMetrics),
      (parse_cpu_go r usage none tbl cd pm).2.2 = pm := by
  intro tbl
  induction tbl with
  | nil => intro cd pm; rfl
  | cons gn rest ih =>
    intro cd pm
    obtain ⟨g, n⟩ := gn
    simp only [parse_cpu_go]
    rcases hg : aGet usage g with _ | w
    · exact ih cd pm
    · exact ih _ _

theorem parse_cpu_go_samples_indep (usage : QMap) (r : Bool) (pk pk' : Option String) :
    ∀ (tbl : List (String × String)) (cd : Dims) (pm pm' : PodMetrics),
      (parse_cpu_go r usage pk tbl cd pm).1 = (parse_cpu_go r usage pk' tbl cd pm').1 := by
  intro tbl
  induction tbl with
  | nil => intro cd pm pm'; rfl
  | cons gn rest ih =>
    intro cd pm pm'
    obtain ⟨g, n⟩ := gn
    simp only [parse_cpu_go]
    rcases hg : aGet usage g with _ | w
    · exact ih cd pm pm'
    · dsimp only
      rw [ih _ _ (add_pod_metric n (w / 1000000000) pk' pm')]

theorem parse_network_metric_go_acc_indep (counters : QMap) (i : String) (pk : Option String)
    (r r' : Bool) :
    ∀ (tbl : List (String × String)) (nd nd' : Dims) (acc : PodNetMetrics),
      (parse_network_metric_go r counters i pk tbl nd acc).2.2 =
        (parse_network_metric_go r' counters i pk tbl nd' acc).2.2 := by
  intro tbl
  induction tbl with
  | nil => intro nd nd' acc; rfl
  | cons gn rest ih =>
    intro nd nd' acc
    obtain ⟨g, n⟩ := gn
    simp only [parse_network_metric_go]
    rcases hg : aGet counters g with _ | w
    · exact ih nd nd' acc
    · exact ih _ _ _

theorem parse_network_metric_go_false_samples (counters : QMap) (i : String) (pk : Option String) :
    ∀ (tbl : List (String × String)) (nd : Dims) (acc : PodNetMetrics),
      (parse_network_metric_go false counters i pk tbl nd acc).1 = [] := by
  intro tbl
  induction tbl with
  | nil => intro nd acc; rfl
  | cons gn rest ih =>
    intro nd acc
    obtain ⟨g, n⟩ := gn
    simp only [parse_network_metric_go]
    rcases hg : aGet counters g with _ | w
    · exact ih nd acc
    · simp only [Bool.false_eq_true, if_false, List.nil_append]
      exact ih _ _

theorem parse_network_metric_go_none_acc (counters : QMap) (i : String) (r : Bool) :
    ∀ (tbl : List (String × String)) (nd : Dims) (acc : PodNetMetrics),
      (parse_network_metric_go r counters i none tbl nd acc).2.2 = acc := by
  intro tbl
  induction tbl with
  | nil => intro nd acc; rfl
  | cons gn rest ih =>
    intro nd acc
    obtain ⟨g, n⟩ := gn
    simp only [parse_network_metric_go]
    rcases hg : aGet counters g with _ | w
    · exact ih nd acc
    · exact ih _ _

theorem parse_network_metric_go_samples_indep (counters : QMap) (i : String) (r : Bool)
    (pk pk' : Option String) :
    ∀ (tbl : List (String × String)) (nd : Dims) (acc acc' : PodNetMetrics),
      (parse_network_metric_go r counters i pk tbl nd acc).1 =
        (parse_network_metric_go r counters i pk' tbl nd acc').1 := by
  intro tbl
  induction tbl with
  | nil => intro nd acc acc'; rfl
  | cons gn rest ih =>
    intro nd acc acc'
    obtain ⟨g, n⟩ := gn
    simp only [parse_network_metric_go]
    rcases hg : aGet counters g with _ | w
    · exact ih nd acc acc'
    · dsimp only
      rw [ih _ _ (if truthyKey pk' then netAdd acc' (keyOf pk') i n w else acc')]

theorem parse_network_go_acc_indep (pk : Option String) (r r' : Bool) :
    ∀ (ifaces : List NetInterface) (cd cd' : Dims) (acc : PodNetMetrics),
      (parse_network_go r cd pk ifaces acc).2 = (parse_network_go r' cd' pk ifaces acc).2 := by
  intro ifaces
  induction ifaces with
  | nil => intro cd cd' acc; rfl
  | cons iface rest ih =>
    intro cd cd' acc
    simp only [parse_network_go]
    rw [parse_network_metric_go_acc_indep iface.counters iface.name pk r r' network_metrics
      (aSet cd "interface" iface.name) (aSet cd' "interface" iface.name) acc]
    exact ih _ _ _

theorem parse_network_go_false_samples (pk : Option String) :
    ∀ (ifaces : List NetInterface) (cd : Dims) (acc : PodNetMetrics),
      (parse_network_go false cd pk ifaces acc).1 = [] := by
  intro ifaces
  induction ifaces with
  | nil => intro cd acc; rfl
  | cons iface rest ih =>
    intro cd acc
    simp only [parse_network_go]
    rw [parse_network_metric_go_false_samples, List.nil_append, ih]

theorem parse_network_go_none_acc (r : Bool) :
    ∀ (ifaces : List NetInterface) (cd : Dims) (acc : PodNetMetrics),
      (parse_network_go r cd none ifaces acc).2 = acc := by
  intro ifaces
  induction ifaces with
  | nil => intro cd acc; rfl
  | cons iface rest ih =>
    intro cd acc
    simp only [parse_network_go]
    rw [parse_network_metric_go_none_acc, ih]

theorem parse_network_go_samples_indep (r : Bool) (pk pk' : Option String) :
    ∀ (ifaces : List NetInterface) (cd : Dims) (acc acc' : PodNetMetrics),
      (parse_network_go r cd pk ifaces acc).1 = (parse_network_go r cd pk' ifaces acc').1 := by
  intro ifaces
  induction ifaces with
  | nil => intro cd acc acc'; rfl
  | cons iface rest ih =>
    intro cd acc acc'
    simp only [parse_network_go]
    rw [parse_network_metric_go_samples_indep iface.counters iface.name r pk pk' network_metrics
      (aSet cd "interface" iface.name) acc acc']
    rw [ih _ _ (parse_network_metric_go r iface.counters iface.name pk' network_metrics
      (aSet cd "interface" iface.name) acc').2.2]

/-- C4: the scalar and network pod accumulators produced by the memory, cpu
and network parsers do not depend on the `report_container_metrics` flag (or
on the dimension dict the flag's emissions mutate), while the container-level
sample lists of those same parsers are empty whenever the flag is off. -/
theorem C4_theorem (md usage : QMap) (ifaces : List NetInterface) (d d' : Dims)
    (pk : Option String) (pm : PodMetrics) (pnm : PodNetMetrics) (r r' : Bool) :
    ((parse_memory r md d pk pm).2.2 = (parse_memory r' md d' pk pm).2.2 ∧
     (parse_cpu r usage d pk pm).2.2 = (parse_cpu r' usage d' pk pm).2.2 ∧
     (parse_network r ifaces d pk pnm).2 = (parse_network r' ifaces d' pk pnm).2) ∧
    ((parse_memory false md d pk pm).1 = [] ∧
     (parse_cpu false usage d pk pm).1 = [] ∧
     (parse_network false ifaces d pk pnm).1 = []) :=
  ⟨⟨parse_memory_go_acc_indep md pk r r' memory_metrics d d' pm,
    parse_cpu_go_acc_indep usage pk r r' cpu_metrics d d' pm,
    parse_network_go_acc_indep pk r r' ifaces d d' pnm⟩,
   ⟨parse_memory_go_false_samples md pk memory_metrics d pm,
    parse_cpu_go_false_samples usage pk cpu_metrics d pm,
    parse_network_go_false_samples pk ifaces d pnm⟩⟩

/-- C2: a container-metrics entry whose computed alias id misses the
container dimension map and whose spec labels lack one of the
`io.kubernetes.pod.*` keys correlates to `pod_key = none`; with a `none` pod
key the memory, cpu and network parsers leave their pod accumulators
untouched, while producing exactly the same container-level samples as they
would for any pod key. -/
theorem C2_theorem (container : String) (idims : Dims) (cspec : ContainerSpec)
    (cdm pdm : List (String × Dims)) (md usage : QMap) (ifaces : List NetInterface)
    (d : Dims) (pm : PodMetrics) (pnm : PodNetMetrics) (k : Option String) (r : Bool)
    (h1 : aGet cdm (container_alias_id container cspec) = none)
    (h2 : match cspec.labels with
          | none => True
          | some L => aGet L "io.kubernetes.pod.namespace" = none ∨
                      aGet L "io.kubernetes.pod.name" = none) :
    (get_container_dimensions container idims cspec cdm pdm).1 = none ∧
    ((parse_memory r md d none pm).2.2 = pm ∧
     (parse_cpu r usage d none pm).2.2 = pm ∧
     (parse_network r ifaces d none pnm).2 = pnm) ∧
    ((parse_memory r md d none pm).1 = (parse_memory r md d k pm).1 ∧
     (parse_cpu r usage d none pm).1 = (parse_cpu r usage d k pm).1 ∧
     (parse_network r ifaces d none pnm).1 = (parse_network r ifaces d k pnm).1) := by
  refine ⟨?_, ⟨parse_memory_go_none_acc md r memory_metrics d pm,
               parse_cpu_go_none_acc usage r cpu_metrics d pm,
               parse_network_go_none_acc r ifaces d pnm⟩,
              ⟨parse_memory_go_samples_indep md r none k memory_metrics d pm pm,
               parse_cpu_go_samples_indep usage r none k cpu_metrics d pm pm,
               parse_network_go_samples_indep r none k ifaces d pnm pnm⟩⟩
  rw [get_container_dimensions]
  simp only [h1]
  match hL : cspec.labels with
  | none => rfl
  | some L =>
    rw [hL] at h2
    rcases h2 with h | h <;>
      simp [dContains, h]

/-- C2 witness: a metrics entry `"/docker/xyz"` whose only alias misses the
(empty) container dimension map and whose spec carries no labels. -/
theorem C2_witness :
    (get_container_dimensions "/docker/xyz" [("cluster", "c")] ⟨["xyz"], "img", none⟩ [] []).1 = none ∧
    ((parse_memory true [("rss", 7)] [("cluster", "c")] none []).2.2 = [] ∧
     (parse_cpu true [("total", 5)] [("cluster", "c")] none []).2.2 = [] ∧
     (parse_network true [⟨"eth0", [("rx_bytes", 10)]⟩] [("cluster", "c")] none []).2 = []) ∧
    ((parse_memory true [("rss", 7)] [("cluster", "c")] none []).1 =
       (parse_memory true [("rss", 7)] [("cluster", "c")] (some "pk") []).1 ∧
     (parse_cpu true [("total", 5)] [("cluster", "c")] none []).1 =
       (parse_cpu true [("total", 5)] [("cluster", "c")] (some "pk") []).1 ∧
     (parse_network true [⟨"eth0", [("rx_bytes", 10)]⟩] [("cluster", "c")] none []).1 =
       (parse_network true [⟨"eth0", [("rx_bytes", 10)]⟩] [("cluster", "c")] (some "pk") []).1) :=
  C2_theorem "/docker/xyz" [("cluster", "c")] ⟨["xyz"], "img", none⟩ [] []
    [("rss", 7)] [("total", 5)] [⟨"eth0", [("rx_bytes", 10)]⟩]
    [("cluster", "c")] [] [] (some "pk") true (by decide) trivial

theorem parse_network_metric_go_netGetD (counters : QMap) (i : String) (pk : Option String)
    (r : Bool) (p j n : String) :
    ∀ (tbl : List (String × String)) (nd : Dims) (acc : PodNetMetrics),
      netGetD (parse_network_metric_go r counters i pk tbl nd acc).2.2 p j n =
        netGetD acc p j n +
          (if truthyKey pk = true ∧ keyOf pk = p ∧ i = j then tblContrib tbl counters n else 0) := by
  intro tbl
  induction tbl with
  | nil =>
    intro nd acc
    simp [parse_network_metric_go, tblContrib]
  | cons gn rest ih =>
    intro nd acc
    obtain ⟨g, m'⟩ := gn
    simp only [parse_network_metric_go]
    rcases hg : aGet counters g with _ | w
    · rw [ih nd acc]
      have hc : tblContrib ((g, m') :: rest) counters n = tblContrib rest counters n := by
        simp [tblContrib, hg]
      rw [hc]
    · dsimp only
      rw [ih]
      by_cases ht : truthyKey pk = true
      · simp only [ht, if_true, true_and]
        rw [netAdd_netGetD]
        by_cases hpj : keyOf pk = p ∧ i = j
        · obtain ⟨hp1, hj1⟩ := hpj
          subst hp1; subst hj1
          simp only [and_true, true_and, if_pos (And.intro rfl rfl)]
          by_cases hm : m' = n
          · subst hm
            simp [tblContrib, hg]
            ring
          · simp [tblContrib, hm]
        · have h1 : ¬(keyOf pk = p ∧ i = j ∧ m' = n) := by tauto
          simp [hpj, h1]
      · have ht' : truthyKey pk = false := by
          cases h : truthyKey pk
          · rfl
          · exact absurd h ht
        simp [ht', ht]

theorem parse_network_go_netGetD (pk : Option String) (r : Bool) (p j n : String) :
    ∀ (ifaces : List NetInterface) (cd : Dims) (acc : PodNetMetrics),
      netGetD (parse_network_go r cd pk ifaces acc).2 p j n =
        netGetD acc p j n +
          (if truthyKey pk = true ∧ keyOf pk = p then ifacesContrib ifaces j n else 0) := by
  intro ifaces
  induction ifaces with
  | nil => intro cd acc; simp [parse_network_go, ifacesContrib]
  | cons iface rest ih =>
    intro cd acc
    simp only [parse_network_go]
    rw [ih]
    rw [parse_network_metric_go_netGetD iface.counters iface.name pk r p j n network_metrics
      (aSet cd "interface" iface.name) acc]
    by_cases ht : truthyKey pk = true ∧ keyOf pk = p
    · obtain ⟨ht1, ht2⟩ := ht
      by_cases hj : iface.name = j
      · simp [ifacesContrib, hj, ht1, ht2]
        ring
      · simp [ifacesContrib, hj, ht1, ht2]
    · have h1 : ¬(truthyKey pk = true ∧ keyOf pk = p ∧ iface.name = j) := by tauto
      simp [ht, h1]

theorem run_network_netGetD (r : Bool) (cd : Dims) (p j n : String) :
    ∀ (entries : List (Option String × List NetInterface)) (acc : PodNetMetrics),
      netGetD (run_network r cd entries acc) p j n =
        netGetD acc p j n + entriesContrib entries p j n := by
  intro entries
  induction entries with
  | nil => intro acc; simp [run_network, entriesContrib]
  | cons e rest ih =>
    intro acc
    simp only [run_network, parse_network]
    rw [ih]
    rw [parse_network_go_netGetD e.1 r p j n e.2 cd acc]
    simp only [entriesContrib]
    ring

/-- C3: across a sequence of `_parse_network` calls (one per container
entry), the network accumulator value at `(pod key p, interface i, canonical
metric n)` grows by exactly the sum, over the entries whose truthy pod key
is `p` and over their interfaces named `i`, of the raw counters the network
table maps to `n` — first write initializing, interfaces with other names
contributing nothing; and flushing an accumulator cell `(p, i, n) = v`
through `send_network_pod_metrics` emits the pod-level gauge and rate pair
for `n` with exactly the value `v`. -/
theorem C3_theorem (r : Bool) (cd : Dims) (entries : List (Option String × List NetInterface))
    (acc : PodNetMetrics) (p i n : String)
    (pdm : List (String × Dims)) (pd : Dims) (v : ℚ) (u0 u1 : String)
    (hcat : catalogGet n = (["gauge", "rate"], [u0, u1]))
    (hpd : aGet pdm p = some pd) :
    netGetD (run_network r cd entries acc) p i n =
      netGetD acc p i n + entriesContrib entries p i n ∧
    (send_network_pod_metrics [(p, [(i, [(n, v)])])] pdm).map (fun s => (s.name, s.value)) =
      [("pod." ++ n, some v), (("pod." ++ n) ++ "_sec", some v)] := by
  constructor
  · exact run_network_netGetD r cd p i n entries acc
  · simp only [send_network_pod_metrics, net_ifaces_go, send_pod_one, hpd, Option.getD_some,
      hcat]
    rw [send_metrics_gauge_rate_eq]
    simp

/-- C3 witness: two containers reporting `rx_bytes = 10` on `eth0` for pod
key `"pa"` and a third reporting on `eth1` give `net.in_bytes = 20` for
`("pa", "eth0")`, and flushing that cell emits `pod.net.in_bytes = 20`. -/
theorem C3_witness :
    netGetD (run_network true []
        [(some "pa", [⟨"eth0", [("rx_bytes", 10)]⟩]),
         (some "pa", [⟨"eth0", [("rx_bytes", 10)]⟩]),
         (some "pa", [⟨"eth1", [("rx_bytes", 4)]⟩])] []) "pa" "eth0" "net.in_bytes" = 20 ∧
    (send_network_pod_metrics [("pa", [("eth0", [("net.in_bytes", 20)])])]
        [("pa", [("pod_name", "x")])]).map (fun s => (s.name, s.value)) =
      [("pod." ++ "net.in_bytes", some 20), (("pod." ++ "net.in_bytes") ++ "_sec", some 20)] := by
  have h := C3_theorem true []
    [(some "pa", [⟨"eth0", [("rx_bytes", 10)]⟩]),
     (some "pa", [⟨"eth0", [("rx_bytes", 10)]⟩]),
     (some "pa", [⟨"eth1", [("rx_bytes", 4)]⟩])] [] "pa" "eth0" "net.in_bytes"
    [("pa", [("pod_name", "x")])] [("pod_name", "x")] 20 "bytes" "bytes_per_second"
    (by decide) (by decide)
  refine ⟨?_, h.2⟩
  rw [h.1]
  simp +decide only [netGetD, entriesContrib, ifacesContrib, tblContrib, truthyKey, keyOf,
    network_metrics, aGet, List.find?]
  norm_num

/-- C10: `_send_metrics` hands back (mutates) the dimension dict it was
given, with the `unit` key set to the unit of the last emission kind it
processed (for the catalog's two kind shapes, `["gauge"]` and
`["gauge", "rate"]`); and `send_pod_metrics`, which takes the pod record out
of the pod dimension map without a copy, leaves that stored record equal to
the dict `_send_metrics` handed back — so the stored record acquires the
`unit` key for the rest of the cycle. -/
theorem C10_theorem (nm : String) (v : ℚ) (d : Dims) (u0 u1 : String)
    (pk m : String) (pdm : List (String × Dims)) (d0 : Dims)
    (h : aGet pdm pk = some d0) :
    (send_metrics nm v d ["gauge"] [u0]).2 = aSet d "unit" u0 ∧
    (send_metrics nm v d ["gauge", "rate"] [u0, u1]).2 = aSet d "unit" u1 ∧
    aGet (send_pod_metrics [(pk, [(m, v)])] pdm).2 pk =
      some (send_metrics ("pod." ++ m) v d0 (catalogGet m).1 (catalogGet m).2).2 := by
  refine ⟨?_, ?_, ?_⟩
  · rw [send_metrics_gauge_eq]
  · rw [send_metrics_gauge_rate_eq]
  · simp only [send_pod_metrics, send_pod_one, h, Option.getD_some]
    rw [aGet_aSet_same]

/-- C10 witness: flushing one accumulated `mem.rss_bytes` value through
`send_pod_metrics` overwrites the stored pod record with the dict carrying
the `unit` key, and both catalog kind shapes leave `unit` at the last
emission's unit. -/
theorem C10_witness :
    (send_metrics "container.mem.rss_bytes" 7 [("pod_name", "p")] ["gauge"] ["bytes"]).2 =
      aSet [("pod_name", "p")] "unit" "bytes" ∧
    (send_metrics "container.cpu.total_time" 7 [("pod_name", "p")] ["gauge", "rate"]
        ["core_seconds", "cores_seconds_per_second"]).2 =
      aSet [("pod_name", "p")] "unit" "cores_seconds_per_second" ∧
    aGet (send_pod_metrics [("k", [("mem.rss_bytes", 7)])] [("k", [("pod_name", "p")])]).2 "k" =
      some (send_metrics ("pod." ++ "mem.rss_bytes") 7 [("pod_name", "p")]
        (catalogGet "mem.rss_bytes").1 (catalogGet "mem.rss_bytes").2).2 := by
  have h := C10_theorem "container.mem.rss_bytes" 7 [("pod_name", "p")] "bytes"
    "cores_seconds_per_second" "k" "mem.rss_bytes" [("k", [("pod_name", "p")])]
    [("pod_name", "p")] (by decide)
  refine ⟨h.1, ?_, h.2.2⟩
  exact ( C10_theorem "container.cpu.total_time" 7 [("pod_name", "p")] "core_seconds"
    "cores_seconds_per_second" "k" "mem.rss_bytes" [("k", [("pod_name", "p")])]
    [("pod_name", "p")] (by decide)).2.1

/-- C1 counterexample: a cycle whose pod-list fetch raises while the
cAdvisor fetch succeeds with data that would produce container samples
emits only the health gauge — `_process_containers` is never reached,
because both processing calls live in the `else:` of the pod fetch — even
though running container processing on the same cAdvisor data with an empty
pod-dimension map would have produced container-level samples. -/
theorem C1_counterexample :
    check true ["app"] none [("hostname", "h"), ("cluster", "c")] (.ok ["ok"]) (.error "boom")
        (.ok ([("/docker/abc", ⟨["abc"], "img", none⟩)],
              [("/docker/abc", [⟨false, none, true, [("rss", 7)], false, none, false, none⟩])])) =
      [⟨"kubelet.health_status", some 0, [("cluster", "c")], "gauge", false⟩] ∧
    process_containers true
        (.ok ([("/docker/abc", ⟨["abc"], "img", none⟩)],
              [("/docker/abc", [⟨false, none, true, [("rss", 7)], false, none, false, none⟩])]))
        [("cluster", "c")] [] [] ≠ [] := by
  exact ⟨by decide, by decide⟩

/-- C1 amended: when the pod-list fetch raises, the error is caught and
logged and the whole remainder of the cycle — pod processing *and* container
processing — is skipped: the cycle emits exactly the health gauge,
regardless of whether the cAdvisor fetches would have succeeded. -/
theorem C1_theorem (report : Bool) (labels : List String) (conn : Option ConnFn)
    (idims : Dims) (health : Except String (List String)) (e : String)
    (cad : Except String (List (String × ContainerSpec) × List (String × List CadvisorSnapshot))) :
    check report labels conn idims health (.error e) cad =
      [⟨"kubelet.health_status", some (if get_api_health health then 0 else 1),
        dDel idims "hostname", "gauge", false⟩] := rfl

theorem append_ne_health (p y : String) (c : Char) (hc : p.data.head? = some c)
    (hk : c ≠ 'k') : ¬(p ++ y = "kubelet.health_status") := by
  intro h
  have h2 : (p ++ y).data = "kubelet.health_status".data := by rw [h]
  rw [String.data_append] at h2
  have h3 : (p.data ++ y.data).head? = ("kubelet.health_status".data).head? := by rw [h2]
  have h4 : ("kubelet.health_status".data).head? = some 'k' := rfl
  cases hd : p.data with
  | nil => rw [hd] at hc; simp at hc
  | cons a t =>
    rw [hd] at hc h3
    rw [h4] at h3
    simp only [List.cons_append, List.head?_cons, Option.some.injEq] at hc h3
    exact hk (hc ▸ h3)

theorem container_append_ne (y : String) : ¬("container." ++ y = "kubelet.health_status") :=
  append_ne_health "container." y 'c' rfl (by decide)

theorem pod_append_ne (y : String) : ¬("pod." ++ y = "kubelet.health_status") :=
  append_ne_health "pod." y 'p' rfl (by decide)

theorem send_metrics_prefix_names (base tail1 : String) (v : ℚ) (T U : List String) (d : Dims)
    (s : Sample) (hs : s ∈ (send_metrics (base ++ tail1) v d T U).1) :
    ∃ y, s.name = base ++ y := by
  rcases send_metrics_go_names (base ++ tail1) v T U T d s hs with h | h
  · exact ⟨tail1, h⟩
  · exact ⟨tail1 ++ "_sec", by rw [h, String.append_assoc]⟩

theorem parse_memory_go_names (report : Bool) (md : QMap) (pk : Option String) :
    ∀ (tbl : List (String × String)) (cd : Dims) (pm : PodMetrics) (s : Sample),
      s ∈ (parse_memory_go report md pk tbl cd pm).1 → ∃ y, s.name = "container." ++ y := by
  intro tbl
  induction tbl with
  | nil => intro cd pm s hs; simp [parse_memory_go] at hs
  | cons gn rest ih =>
    intro cd pm s hs
    obtain ⟨g, n⟩ := gn
    simp only [parse_memory_go] at hs
    rcases hg : aGet md g with _ | w <;> rw [hg] at hs
    · exact ih _ _ _ hs
    · simp only [List.mem_append] at hs
      rcases hs with h | h
      · cases report with
        | false => simp at h
        | true =>
          simp only [if_true] at h
          exact send_metrics_prefix_names "container." n w _ _ _ s h
      · exact ih _ _ _ h

theorem parse_cpu_go_names (report : Bool) (usage : QMap) (pk : Option String) :
    ∀ (tbl : List (String × String)) (cd : Dims) (pm : PodMetrics) (s : Sample),
      s ∈ (parse_cpu_go report usage pk tbl cd pm).1 → ∃ y, s.name = "container." ++ y := by
  intro tbl
  induction tbl with
  | nil => intro cd pm s hs; simp [parse_cpu_go] at hs
  | cons gn rest ih =>
    intro cd pm s hs
    obtain ⟨g, n⟩ := gn
    simp only [parse_cpu_go] at hs
    rcases hg : aGet usage g with _ | w <;> rw [hg] at hs
    · exact ih _ _ _ hs
    · simp only [List.mem_append] at hs
      rcases hs with h | h
      · cases report with
        | false => simp at h
        | true =>
          simp only [if_true] at h
          exact send_metrics_prefix_names "container." n (w / 1000000000) _ _ _ s h
      · exact ih _ _ _ h

theorem parse_filesystem_table_go_names (fields : QMap) :
    ∀ (tbl : List (String × String)) (fd : Dims) (s : Sample),
      s ∈ (parse_filesystem_table_go fields tbl fd).1 → ∃ y, s.name = "container." ++ y := by
  intro tbl
  induction tbl with
  | nil => intro fd s hs; simp [parse_filesystem_table_go] at hs
  | cons gn rest ih =>
    intro fd s hs
    obtain ⟨g, n⟩ := gn
    simp only [parse_filesystem_table_go] at hs
    rcases hg : aGet fields g with _ | w <;> rw [hg] at hs
    · exact ih _ _ hs
    · simp only [List.mem_append] at hs
      rcases hs with h | h
      · exact send_metrics_prefix_names "container." n w _ _ _ s h
      · exact ih _ _ h

theorem parse_filesystem_go_names :
    ∀ (fsl : List FsEntry) (cd : Dims) (s : Sample),
      s ∈ parse_filesystem_go fsl cd → ∃ y, s.name = "container." ++ y := by
  intro fsl
  induction fsl with
  | nil => intro cd s hs; simp [parse_filesystem_go] at hs
  | cons e rest ih =>
    intro cd s hs
    simp only [parse_filesystem_go, List.mem_append] at hs
    rcases hs with h | h
    · exact parse_filesystem_table_go_names e.fields filesystem_metrics _ s h
    · exact ih _ s h

theorem parse_filesystem_names (report : Bool) (fsl : List FsEntry) (cd : Dims) (s : Sample)
    (hs : s ∈ parse_filesystem report fsl cd) : ∃ y, s.name = "container." ++ y := by
  rw [parse_filesystem] at hs
  cases report with
  | false => simp at hs
  | true => exact parse_filesystem_go_names fsl cd s (by simpa using hs)

theorem parse_network_metric_go_names (report : Bool) (counters : QMap) (i : String)
    (pk : Option String) :
    ∀ (tbl : List (String × String)) (nd : Dims) (acc : PodNetMetrics) (s : Sample),
      s ∈ (parse_network_metric_go report counters i pk tbl nd acc).1 →
      ∃ y, s.name = "container." ++ y := by
  intro tbl
  induction tbl with
  | nil => intro nd acc s hs; simp [parse_network_metric_go] at hs
  | cons gn rest ih =>
    intro nd acc s hs
    obtain ⟨g, n⟩ := gn
    simp only [parse_network_metric_go] at hs
    rcases hg : aGet counters g with _ | w <;> rw [hg] at hs
    · exact ih _ _ _ hs
    · simp only [List.mem_append] at hs
      rcases hs with h | h
      · cases report with
        | false => simp at h
        | true =>
          simp only [if_true] at h
          exact send_metrics_prefix_names "container." n w _ _ _ s h
      · exact ih _ _ _ h

theorem parse_network_go_names (report : Bool) (pk : Option String) :
    ∀ (ifaces : List NetInterface) (cd : Dims) (acc : PodNetMetrics) (s : Sample),
      s ∈ (parse_network_go report cd pk ifaces acc).1 → ∃ y, s.name = "container." ++ y := by
  intro ifaces
  induction ifaces with
  | nil => intro cd acc s hs; simp [parse_network_go] at hs
  | cons iface rest ih =>
    intro cd acc s hs
    simp only [parse_network_go, List.mem_append] at hs
    rcases hs with h | h
    · exact parse_network_metric_go_names report iface.counters iface.name pk
        network_metrics _ _ s h
    · exact ih _ _ s h

theorem send_pod_one_names :
    ∀ (qm : QMap) (d : Dims) (s : Sample),
      s ∈ (send_pod_one qm d).1 → ∃ y, s.name = "pod." ++ y := by
  intro qm
  induction qm with
  | nil => intro d s hs; simp [send_pod_one] at hs
  | cons mv rest ih =>
    intro d s hs
    obtain ⟨mn, v⟩ := mv
    simp only [send_pod_one, List.mem_append] at hs
    rcases hs with h | h
    · exact send_metrics_prefix_names "pod." mn v _ _ _ s h
    · exact ih _ s h

theorem send_pod_metrics_names :
    ∀ (pmm : PodMetrics) (pdm : List (String × Dims)) (s : Sample),
      s ∈ (send_pod_metrics pmm pdm).1 → ∃ y, s.name = "pod." ++ y := by
  intro pmm
  induction pmm with
  | nil => intro pdm s hs; simp [send_pod_metrics] at hs
  | cons kv rest ih =>
    intro pdm s hs
    obtain ⟨pk, metrics⟩ := kv
    simp only [send_pod_metrics, List.mem_append] at hs
    rcases hs with h | h
    · exact send_pod_one_names metrics _ s h
    · exact ih _ s h

theorem net_ifaces_go_names :
    ∀ (nim : List (String × QMap)) (d : Dims) (s : Sample),
      s ∈ net_ifaces_go nim d → ∃ y, s.name = "pod." ++ y := by
  intro nim
  induction nim with
  | nil => intro d s hs; simp [net_ifaces_go] at hs
  | cons kv rest ih =>
    intro d s hs
    obtain ⟨iface, metrics⟩ := kv
    simp only [net_ifaces_go, List.mem_append] at hs
    rcases hs with h | h
    · exact send_pod_one_names metrics _ s h
    · exact ih _ s h

theorem send_network_pod_metrics_names :
    ∀ (pnm : PodNetMetrics) (pdm : List (String × Dims)) (s : Sample),
      s ∈ send_network_pod_metrics pnm pdm → ∃ y, s.name = "pod." ++ y := by
  intro pnm
  induction pnm with
  | nil => intro pdm s hs; simp [send_network_pod_metrics] at hs
  | cons kv rest ih =>
    intro pdm s hs
    obtain ⟨pk, ifaces⟩ := kv
    simp only [send_network_pod_metrics, List.mem_append] at hs
    rcases hs with h | h
    · exact net_ifaces_go_names ifaces _ s h
    · exact ih _ s h

theorem process_containers_go_names (report : Bool) (cspec : List (String × ContainerSpec))
    (dims : Dims) (pdm : List (String × Dims)) :
    ∀ (entries : List (String × List CadvisorSnapshot)) (cdm : List (String × Dims))
      (pm : PodMetrics) (pnm : PodNetMetrics) (s : Sample),
      s ∈ (process_containers_go report cspec dims pdm entries cdm pm pnm).1 →
      ∃ y, s.name = "container." ++ y := by
  intro entries
  induction entries with
  | nil => intro cdm pm pnm s hs; simp [process_containers_go] at hs
  | cons ent rest ih =>
    intro cdm pm pnm s hs
    obtain ⟨container, snaps⟩ := ent
    simp only [process_containers_go, List.mem_append] at hs
    rcases hs with (((h | h) | h) | h) | h
    · split at h
      · exact parse_memory_go_names report _ _ memory_metrics _ _ s h
      · simp at h
    · split at h
      · split at h
        · exact parse_filesystem_names report _ _ s h
        · simp at h
      · simp at h
    · split at h
      · split at h
        · exact parse_network_go_names report _ _ _ _ s h
        · simp at h
      · simp at h
    · split at h
      · split at h
        · exact parse_cpu_go_names report _ _ cpu_metrics _ _ s h
        · simp at h
      · simp at h
    · exact ih _ _ _ s h

theorem process_containers_names (report : Bool)
    (fetch : Except String (List (String × ContainerSpec) × List (String × List CadvisorSnapshot)))
    (dims : Dims) (cdm pdm : List (String × Dims)) (s : Sample)
    (hs : s ∈ process_containers report fetch dims cdm pdm) :
    (∃ y, s.name = "container." ++ y) ∨ (∃ y, s.name = "pod." ++ y) := by
  match fetch with
  | .error e => simp [process_containers] at hs
  | .ok (csp, cms) =>
    simp only [process_containers, List.mem_append] at hs
    rcases hs with (h | h) | h
    · exact Or.inl (process_containers_go_names report csp dims pdm cms cdm [] [] s h)
    · exact Or.inr (send_pod_metrics_names _ pdm s h)
    · exact Or.inr (send_network_pod_metrics_names _ _ s h)

theorem statuses_go_names (report : Bool) (pd : Dims) :
    ∀ (css : List ContainerStatus) (n2i : List (String × String)) (cdm : List (String × Dims))
      (rc : ℚ) (s : Sample),
      s ∈ (statuses_go report pd css n2i cdm rc).1 →
      s.name = "container.ready_status" ∨ s.name = "container.restart_count" := by
  intro css
  induction css with
  | nil => intro n2i cdm rc s hs; simp [statuses_go] at hs
  | cons cs rest ih =>
    intro n2i cdm rc s hs
    simp only [statuses_go, List.mem_append] at hs
    rcases hs with h | h
    · cases report with
      | false => simp at h
      | true =>
        simp only [if_true, List.mem_cons, List.not_mem_nil, or_false] at h
        rcases h with h | h
        · left; rw [h]
        · right; rw [h]
    · exact ih _ _ _ s h

theorem report_container_limits_go_names (cdm : List (String × Dims))
    (n2i : List (String × String)) :
    ∀ (cs : List PodContainer) (s : Sample),
      s ∈ report_container_limits_go cdm n2i cs →
      s.name ∈ ["container.cpu.limit", "container.memory.limit_bytes",
                "container.request.cpu", "container.request.memory_bytes"] := by
  intro cs
  induction cs with
  | nil => intro s hs; simp [report_container_limits_go] at hs
  | cons c rest ih =>
    intro s hs
    simp only [report_container_limits_go, List.mem_append] at hs
    rcases hs with (h | h) | h
    · split at h
      · simp at h
      · simp only [List.mem_append] at h
        rcases h with h | h
        · split at h
          · simp only [List.mem_cons, List.not_mem_nil, or_false] at h
            rw [h]; simp
          · simp at h
        · split at h
          · simp only [List.mem_cons, List.not_mem_nil, or_false] at h
            rw [h]; simp
          · simp at h
    · split at h
      · simp at h
      · simp only [List.mem_append] at h
        rcases h with h | h
        · split at h
          · simp only [List.mem_cons, List.not_mem_nil, or_false] at h
            rw [h]; simp
          · simp at h
        · split at h
          · simp only [List.mem_cons, List.not_mem_nil, or_false] at h
            rw [h]; simp
          · simp at h
    · exact ih s h

theorem process_pods_go_names (report : Bool) (labels : List String) (conn : Option ConnFn)
    (dims : Dims) :
    ∀ (pods : List Pod) (cdm pdm : List (String × Dims)) (s : Sample),
      s ∈ (process_pods_go report labels conn dims pods cdm pdm).1 →
      s.name ∈ ["container.ready_status", "container.restart_count",
                "container.cpu.limit", "container.memory.limit_bytes",
                "container.request.cpu", "container.request.memory_bytes",
                "pod.restart_count", "pod.phase"] := by
  intro pods
  induction pods with
  | nil => intro cdm pdm s hs; simp [process_pods_go] at hs
  | cons pod rest ih =>
    intro cdm pdm s hs
    simp only [process_pods_go] at hs
    split at hs
    · exact ih _ _ s hs
    · simp only [List.mem_append] at hs
      rcases hs with ((h | h) | h) | h
      · rcases statuses_go_names report _ _ _ _ _ s h with h1 | h1 <;> rw [h1] <;> decide
      · split at h
        · have h1 := report_container_limits_go_names _ _ _ s h
          simp only [List.mem_cons, List.not_mem_nil, or_false] at h1
          rcases h1 with h1 | h1 | h1 | h1 <;> rw [h1] <;> decide
        · simp at h
      · simp only [List.mem_cons, List.not_mem_nil, or_false] at h
        rcases h with h | h <;> rw [h] <;> simp
      · exact ih _ _ s h

theorem sample_name_ne_health_of_shape (nm : String)
    (h : (∃ y, nm = "container." ++ y) ∨ (∃ y, nm = "pod." ++ y)) :
    (nm == "kubelet.health_status") = false := by
  rw [beq_eq_false_iff_ne]
  rcases h with ⟨y, hy⟩ | ⟨y, hy⟩
  · rw [hy]; exact container_append_ne y
  · rw [hy]; exact pod_append_ne y

theorem pods_name_ne_health (nm : String)
    (h : nm ∈ ["container.ready_status", "container.restart_count",
               "container.cpu.limit", "container.memory.limit_bytes",
               "container.request.cpu", "container.request.memory_bytes",
               "pod.restart_count", "pod.phase"]) :
    (nm == "kubelet.health_status") = false := by
  simp only [List.mem_cons, List.not_mem_nil, or_false] at h
  rcases h with h | h | h | h | h | h | h | h <;> rw [h] <;> decide

/-- C9: in every cycle, filtering the emitted samples by the name
`kubelet.health_status` yields exactly one gauge, emitted first, whose value
is 0 when the health probe succeeded with a body line equal to `"ok"` and 1
otherwise; a health fetch failure is caught inside `_get_api_health` and
only flips the gauge to 1, never aborting the cycle. -/
theorem C9_theorem (report : Bool) (labels : List String) (conn : Option ConnFn)
    (idims : Dims) (health : Except String (List String))
    (pods : Except String (List Pod))
    (cad : Except String (List (String × ContainerSpec) × List (String × List CadvisorSnapshot))) :
    (check report labels conn idims health pods cad).filter
        (fun s => s.name == "kubelet.health_status") =
      [⟨"kubelet.health_status", some (if get_api_health health then 0 else 1),
        dDel idims "hostname", "gauge", false⟩] ∧
    (∀ lines, health = .ok lines →
      get_api_health health = lines.any (fun line => line == "ok")) ∧
    (∀ e, health = .error e → get_api_health health = false) := by
  refine ⟨?_, ?_, ?_⟩
  · match pods with
    | .error e =>
      rw [show check report labels conn idims health (Except.error e) cad =
            [⟨"kubelet.health_status", some (if get_api_health health then 0 else 1),
              dDel idims "hostname", "gauge", false⟩] from rfl]
      simp [List.filter_cons]
    | .ok ps =>
      simp only [check]
      have h1 : (process_pods_go report labels conn (dDel idims "hostname") ps [] []).1.filter
          (fun s => s.name == "kubelet.health_status") = [] :=
        List.filter_eq_nil_iff.mpr (fun a ha => by
          rw [pods_name_ne_health a.name
            (process_pods_go_names report labels conn (dDel idims "hostname") ps [] [] a ha)]
          exact Bool.false_ne_true)
      have h2 : (process_containers report cad (dDel idims "hostname")
            (process_pods_go report labels conn (dDel idims "hostname") ps [] []).2.1
            (process_pods_go report labels conn (dDel idims "hostname") ps [] []).2.2).filter
          (fun s => s.name == "kubelet.health_status") = [] :=
        List.filter_eq_nil_iff.mpr (fun a ha => by
          rw [sample_name_ne_health_of_shape a.name
            (process_containers_names report cad (dDel idims "hostname") _ _ a ha)]
          exact Bool.false_ne_true)
      simp [List.filter_cons, List.filter_append, h1, h2]
  · intro lines h
    rw [h]
    rfl
  · intro e h
    rw [h]
    rfl

/-- C9 witness: a healthy probe (`.ok` body with an `"ok"` line) filters to
the single gauge with value 0; `get_api_health` maps an `.error` to
`false`. -/
theorem C9_witness :
    (check true ["app"] none [("hostname", "h"), ("cluster", "c")] (Except.ok ["ok"])
        (Except.ok []) (Except.error "down")).filter
        (fun s => s.name == "kubelet.health_status") =
      [⟨"kubelet.health_status", some 0, [("cluster", "c")], "gauge", false⟩] ∧
    get_api_health (Except.ok ["ok"]) = true ∧
    get_api_health (Except.error "down") = false := by
  have h := C9_theorem true ["app"] none [("hostname", "h"), ("cluster", "c")]
    (Except.ok ["ok"]) (Except.ok []) (Except.error "down")
  refine ⟨?_, by decide, by decide⟩
  have h1 := h.1
  simpa using h1
